import Mathlib

/-!
Verification development for the tokenTransformer repository.

The TypeScript sources are embedded shallowly:
* JavaScript strings are `String` / `List Char`; scanning code is written as
  structural recursion on character lists (with explicit fuel where the
  original advances by a computed amount).
* JavaScript numbers are embedded as `Int` where the program only ever
  produces integers (RGB channels, HSL output fields) and as `ℚ` elsewhere;
  all arithmetic in the sources is exact on these inputs.  Where the source
  would produce `NaN` (a failed `parseInt`/`parseFloat` on malformed input)
  the embedding returns a parse error instead; no theorem below depends on
  such inputs.
* Fallible code returns `Except String α` mirroring `throw`; a caught
  exception is an `.error` consumed at the catch site.
-/

deriving instance DecidableEq for Except

/-- Characters of the JavaScript regex class `\s` that can occur in this
code base (space, tab, line feed, carriage return, vertical tab, form feed,
no-break space, BOM). -/
def isJsWs (c : Char) : Bool :=
  c = ' ' || c = '\t' || c = '\n' || c = '\r' || c = '\x0b' || c = '\x0c' ||
  c = '\u00a0' || c = '\ufeff'

/-- Embedding of `str.replace(/\s+/g, '')`: removes every whitespace character. -/
def stripWs (s : String) : String :=
  ⟨s.data.filter (fun c => !isJsWs c)⟩

/-- Embedding of `String.prototype.trim`. -/
def jsTrim (s : String) : String :=
  ⟨((s.data.dropWhile isJsWs).reverse.dropWhile isJsWs).reverse⟩

/-- Embedding of `String.prototype.startsWith`. -/
def jsStartsWith (s p : String) : Bool :=
  p.data.isPrefixOf s.data

/-- Whether the pattern occurs in the list starting at some position. -/
def listContainsSub (pat : List Char) : List Char → Bool
  | [] => pat.isEmpty
  | c :: rest => pat.isPrefixOf (c :: rest) || listContainsSub pat rest

/-- Embedding of `String.prototype.includes`. -/
def jsIncludes (s p : String) : Bool :=
  listContainsSub p.data s.data

/-- ASCII lower-casing, embedding `String.prototype.toLowerCase` on the
ASCII data this program handles (hex color strings). -/
def jsToLower (s : String) : String :=
  ⟨s.data.map (fun c => if 'A' ≤ c && c ≤ 'Z' then Char.ofNat (c.toNat + 32) else c)⟩

/-- Decimal digit test (`\d`). -/
def isDigitC (c : Char) : Bool := '0' ≤ c && c ≤ '9'

/-- Hex digit test (`[0-9a-fA-F]`). -/
def isHexDigitC (c : Char) : Bool :=
  isDigitC c || ('a' ≤ c && c ≤ 'f') || ('A' ≤ c && c ≤ 'F')

/-- Numeric value of a hex digit. -/
def hexVal (c : Char) : Nat :=
  if isDigitC c then c.toNat - '0'.toNat
  else if 'a' ≤ c && c ≤ 'f' then c.toNat - 'a'.toNat + 10
  else c.toNat - 'A'.toNat + 10

/-- Fold a list of hex digit characters into a number. -/
def hexFold (l : List Char) : Nat :=
  l.foldl (fun acc c => acc * 16 + hexVal c) 0

/-- Embedding of `parseInt(s, 16)`: skip leading whitespace, optional sign,
take the maximal run of hex digits; `none` stands for `NaN` (no digits). -/
def jsParseIntHex (s : String) : Option Int :=
  let l := s.data.dropWhile isJsWs
  let (sign, l) : Int × List Char :=
    match l with
    | '-' :: rest => (-1, rest)
    | '+' :: rest => (1, rest)
    | l => (1, l)
  let digits := l.takeWhile isHexDigitC
  if digits.isEmpty then none else some (sign * (hexFold digits : Nat))

/-- Fold decimal digit characters into a number. -/
def decFold (l : List Char) : Nat :=
  l.foldl (fun acc c => acc * 10 + (c.toNat - '0'.toNat)) 0

/-- Embedding of `parseInt(s, 10)`: skip leading whitespace, optional sign,
maximal run of decimal digits; `none` stands for `NaN`. -/
def jsParseIntDec (s : String) : Option Int :=
  let l := s.data.dropWhile isJsWs
  let (sign, l) : Int × List Char :=
    match l with
    | '-' :: rest => (-1, rest)
    | '+' :: rest => (1, rest)
    | l => (1, l)
  let digits := l.takeWhile isDigitC
  if digits.isEmpty then none else some (sign * (decFold digits : Nat))

/-- Embedding of `parseFloat`: skip leading whitespace, optional sign,
integer digits, optional fraction, optional exponent; parses the longest
valid numeric prefix; `none` stands for `NaN`. -/
def jsParseFloat (s : String) : Option ℚ :=
  let l := s.data.dropWhile isJsWs
  let (sign, l) : ℚ × List Char :=
    match l with
    | '-' :: rest => (-1, rest)
    | '+' :: rest => (1, rest)
    | l => (1, l)
  let intPart := l.takeWhile isDigitC
  let l := l.drop intPart.length
  let (fracPart, l) : List Char × List Char :=
    match l with
    | '.' :: rest => (rest.takeWhile isDigitC, rest.drop (rest.takeWhile isDigitC).length)
    | l => ([], l)
  if intPart.isEmpty && fracPart.isEmpty then none
  else
    let mant : ℚ := sign * ((decFold intPart : ℚ) +
      (decFold fracPart : ℚ) / ((10 : ℚ) ^ fracPart.length))
    -- optional exponent part `e`/`E` with optional sign and at least one digit
    let expo : Option Int :=
      match l with
      | 'e' :: rest | 'E' :: rest =>
        let (esign, rest) : Int × List Char :=
          match rest with
          | '-' :: r => (-1, r)
          | '+' :: r => (1, r)
          | rest => (1, rest)
        let ds := rest.takeWhile isDigitC
        if ds.isEmpty then none else some (esign * (decFold ds : Nat))
      | _ => none
    match expo with
    | some e => some (mant * (10 : ℚ) ^ e)
    | none => some mant

/-- Embedding of `Math.round` (JavaScript rounds half towards positive
infinity). -/
def jsRound (q : ℚ) : Int := ⌊q + 1 / 2⌋

/-- Embedding of the JavaScript remainder operator `%` on numbers: the
result takes the sign of the dividend (truncated division). -/
def jsRem (a m : ℚ) : ℚ :=
  if m = 0 then 0 else a - m * ((a / m).num.tdiv ((a / m).den : Int) : Int)

/-- Embedding of `%` on integer values (sign of the dividend). -/
def jsIntRem (a m : Int) : Int := Int.tmod a m

/-- Embedding of `Math.floor`. -/
def jsFloor (q : ℚ) : Int := ⌊q⌋

/-- Embedding of `String.prototype.replace` with a plain-string pattern:
replaces only the first occurrence. -/
def replaceFirstL (pat rep : List Char) : List Char → List Char
  | [] => if pat.isEmpty then rep else []
  | c :: rest =>
    if pat.isPrefixOf (c :: rest) then rep ++ (c :: rest).drop pat.length
    else c :: replaceFirstL pat rep rest

/-- String wrapper for `replaceFirstL`. -/
def jsReplaceFirst (s pat rep : String) : String :=
  ⟨replaceFirstL pat.data rep.data s.data⟩

/-- Embedding of `String.prototype.split` with a plain-string single-character
separator (this program only splits on a comma). -/
def splitOnChar (sep : Char) : List Char → List (List Char)
  | [] => [[]]
  | c :: rest =>
    let r := splitOnChar sep rest
    if c = sep then [] :: r
    else
      match r with
      | [] => [[c]]
      | h :: t => (c :: h) :: t

/-! ## Color data model (src/utils/colorUtils.ts type definitions) -/

/-- The `RGB` type of colorUtils.  Channel values are integers everywhere in
this program: every producer applies `Math.round` or `parseInt`. -/
structure RGB where
  r : Int
  g : Int
  b : Int
  a : Option ℚ := none
deriving DecidableEq, Repr

/-- The `HSL` type of colorUtils.  The fields are rationals: `rgbToHsl`
produces whole-number degrees and percentages while `parseHslColor` stores
the saturation and lightness as fractions, exactly as in the source. -/
structure HSL where
  h : ℚ
  s : ℚ
  l : ℚ
  a : Option ℚ := none
deriving DecidableEq, Repr

/-- The `OKLCH` type of colorUtils. -/
structure OKLCH where
  l : ℚ
  c : ℚ
  h : ℚ
  a : Option ℚ := none
deriving DecidableEq, Repr

/-- Return type of `parseColor`: hex plus rgb, with hsl and oklch optional. -/
structure ColorParse where
  hex : String
  rgb : RGB
  hsl : Option HSL := none
  oklch : Option OKLCH := none
deriving DecidableEq, Repr

/-- Lower-case hex digits as produced by `Number.prototype.toString(16)`. -/
def hexDigit : Nat → Char
  | 0 => '0' | 1 => '1' | 2 => '2' | 3 => '3' | 4 => '4'
  | 5 => '5' | 6 => '6' | 7 => '7' | 8 => '8' | 9 => '9'
  | 10 => 'a' | 11 => 'b' | 12 => 'c' | 13 => 'd' | 14 => 'e' | 15 => 'f'
  | _ => '0'

/-- `Math.max(0, Math.min(255, v))`. -/
def clamp255 (v : Int) : Int := max 0 (min 255 v)

/-- The `toHex` helper inside `rgbToHex`:
`Math.max(0, Math.min(255, Math.round(value))).toString(16)` padded to two
digits.  Channel values are integers (see `RGB`), so `Math.round` is the
identity; the clamped value is in `[0, 255]`, so the padded representation
is exactly the two hex digits of the value. -/
def toHexPair (v : Int) : List Char :=
  let c := (clamp255 v).toNat
  [hexDigit (c / 16), hexDigit (c % 16)]

/-- Embedding of `rgbToHex`. -/
def rgbToHex (c : RGB) : String :=
  let base := '#' :: (toHexPair c.r ++ toHexPair c.g ++ toHexPair c.b)
  match c.a with
  | some a => if a < 1 then ⟨base ++ toHexPair (jsRound (a * 255))⟩ else ⟨base⟩
  | none => ⟨base⟩

/-- Embedding of `rgbToHsl`. -/
def rgbToHsl (c : RGB) : HSL :=
  let r : ℚ := (c.r : ℚ) / 255
  let g : ℚ := (c.g : ℚ) / 255
  let b : ℚ := (c.b : ℚ) / 255
  let mx := max r (max g b)
  let mn := min r (min g b)
  let delta := mx - mn
  let l := (mx + mn) / 2
  let sRaw : ℚ :=
    if delta = 0 then 0
    else if l > 1 / 2 then delta / (2 - mx - mn) else delta / (mx + mn)
  let hOut : ℚ :=
    if delta = 0 then 0
    else (jsRound ((if mx = r then (g - b) / delta + (if g < b then 6 else 0)
      else if mx = g then (b - r) / delta + 2
      else (r - g) / delta + 4) * 60) : Int)
  { h := hOut, s := (jsRound (sRaw * 100) : Int), l := (jsRound (l * 100) : Int), a := c.a }

/-- The `hue2rgb` helper inside `hslToRgb`. -/
def hue2rgb (p q t : ℚ) : ℚ :=
  let t := if t < 0 then t + 1 else t
  let t := if t > 1 then t - 1 else t
  if t < 1 / 6 then p + (q - p) * 6 * t
  else if t < 1 / 2 then q
  else if t < 2 / 3 then p + (q - p) * (2 / 3 - t) * 6
  else p

/-- Embedding of `hslToRgb`. -/
def hslToRgb (hsl : HSL) : RGB :=
  let h := hsl.h / 360
  let s := hsl.s
  let l := hsl.l / 100
  if s = 0 then
    let v := jsRound (l * 255)
    { r := v, g := v, b := v, a := hsl.a }
  else
    let q := if l < 1 / 2 then l * (1 + s) else l + s - l * s
    let p := 2 * l - q
    { r := jsRound (hue2rgb p q (h + 1 / 3) * 255)
      g := jsRound (hue2rgb p q h * 255)
      b := jsRound (hue2rgb p q (h - 1 / 3) * 255)
      a := hsl.a }

/-- Embedding of `approximateOklchToRgb` (the deliberately inaccurate
hue-sector interpolation of the source, preserved as reference behavior). -/
def approximateOklchToRgb (ok : OKLCH) : RGB :=
  let l := max 0 (min 1 ok.l)
  let c := max 0 (min (2 / 5) ok.c)
  let h := jsRem ok.h 360
  let hueSection := jsFloor (h / 60)
  let hueRemainder := (jsRem h 60) / 60
  let colorValue := l * (1 + c * 2 - 1)
  let mn := l * (1 - c)
  let mid := l * (1 - c * (1 - hueRemainder))
  let mx := l * (1 - c * hueRemainder)
  let hs := jsIntRem hueSection 6
  let rgb : ℚ × ℚ × ℚ :=
    if hs = 0 then (colorValue, mid, mn)
    else if hs = 1 then (mx, colorValue, mn)
    else if hs = 2 then (mn, colorValue, mid)
    else if hs = 3 then (mn, mx, colorValue)
    else if hs = 4 then (mid, mn, colorValue)
    else if hs = 5 then (colorValue, mn, mx)
    else (l, l, l)
  { r := clamp255 (jsRound (rgb.1 * 255))
    g := clamp255 (jsRound (rgb.2.1 * 255))
    b := clamp255 (jsRound (rgb.2.2 * 255))
    a := ok.a }

/-- Embedding of `parseHexColor`.  A `NaN` channel (fewer than six digits
after shorthand expansion, or non-hex characters) is modelled as a parse
error (header note); a `NaN` alpha is modelled as an absent alpha. -/
def parseHexColor (hexStr : String) : Except String ColorParse :=
  let hex0 := jsReplaceFirst hexStr "#" ""
  let hex : String :=
    match hex0.data with
    | [c1, c2, c3] => ⟨[c1, c1, c2, c2, c3, c3]⟩
    | _ => hex0
  match jsParseIntHex ⟨hex.data.take 2⟩, jsParseIntHex ⟨(hex.data.drop 2).take 2⟩,
        jsParseIntHex ⟨(hex.data.drop 4).take 2⟩ with
  | some r, some g, some b =>
    let a : Option ℚ :=
      if hex.data.length = 8 then
        match jsParseIntHex ⟨(hex.data.drop 6).take 2⟩ with
        | some v => some ((v : ℚ) / 255)
        | none => none
      else none
    let rgb : RGB := { r := r, g := g, b := b, a := a }
    .ok { hex := ⟨'#' :: hex.data⟩, rgb := rgb, hsl := some (rgbToHsl rgb), oklch := none }
  | _, _, _ => .error "NaN hex channel (modelled)"

/-- Embedding of `parseRgbColor`.  `NaN` channels or alpha (missing or
non-numeric components) are modelled as parse errors (header note). -/
def parseRgbColor (rgbStr : String) : Except String ColorParse :=
  let isRgba := jsStartsWith rgbStr "rgba("
  let stripped := jsReplaceFirst (jsReplaceFirst rgbStr (if isRgba then "rgba(" else "rgb(") "") ")" ""
  let values := (splitOnChar ',' stripped.data).map (fun l => jsTrim ⟨l⟩)
  match (values.get? 0).bind jsParseIntDec, (values.get? 1).bind jsParseIntDec,
        (values.get? 2).bind jsParseIntDec with
  | some r, some g, some b =>
    if isRgba then
      match (values.get? 3).bind jsParseFloat with
      | some a =>
        let rgb : RGB := { r := r, g := g, b := b, a := some a }
        .ok { hex := rgbToHex rgb, rgb := rgb, hsl := some (rgbToHsl rgb), oklch := none }
      | none => .error "NaN rgba alpha (modelled)"
    else
      let rgb : RGB := { r := r, g := g, b := b, a := none }
      .ok { hex := rgbToHex rgb, rgb := rgb, hsl := some (rgbToHsl rgb), oklch := none }
  | _, _, _ => .error "NaN rgb channel (modelled)"

/-- Embedding of `parseHslColor`.  `NaN` components are modelled as parse
errors (header note). -/
def parseHslColor (hslStr : String) : Except String ColorParse :=
  let isHsla := jsStartsWith hslStr "hsla("
  let stripped := jsReplaceFirst (jsReplaceFirst hslStr (if isHsla then "hsla(" else "hsl(") "") ")" ""
  let values := (splitOnChar ',' stripped.data).map (fun l => jsTrim ⟨l⟩)
  match (values.get? 0).bind jsParseIntDec, (values.get? 1).bind jsParseIntDec,
        (values.get? 2).bind jsParseIntDec with
  | some h, some s, some l =>
    let aRes : Except String (Option ℚ) :=
      if isHsla then
        match (values.get? 3).bind jsParseFloat with
        | some a => .ok (some a)
        | none => .error "NaN hsla alpha (modelled)"
      else .ok none
    match aRes with
    | .error e => .error e
    | .ok a =>
      let hsl : HSL := { h := (h : ℚ), s := (s : ℚ) / 100, l := (l : ℚ) / 100, a := a }
      let rgb := hslToRgb hsl
      .ok { hex := rgbToHex rgb, rgb := rgb, hsl := some hsl, oklch := none }
  | _, _, _ => .error "NaN hsl component (modelled)"

/-- The regex search `/oklch\(([^)]+)\)/`: the first position carrying
`oklch(` followed by a nonempty run of non-parenthesis characters and a
closing parenthesis; returns the captured run. -/
def oklchContent : List Char → Option (List Char)
  | [] => none
  | c :: rest =>
    if "oklch(".data.isPrefixOf (c :: rest) then
      let after := (c :: rest).drop 6
      let content := after.takeWhile (fun ch => ch ≠ ')')
      if content.isEmpty then oklchContent rest
      else if content.length < after.length then some content
      else oklchContent rest
    else oklchContent rest

/-- Embedding of `parseOklchColor`.  The component splitter `/\s+|,\s*/`
degenerates to splitting on commas because the caller has already removed
all whitespace; `filter(Boolean)` drops empty fragments.  Missing or
non-numeric components are `NaN` in the source, modelled as parse errors
(header note). -/
def parseOklchColor (oklchStr : String) : Except String ColorParse :=
  match oklchContent oklchStr.data with
  | none => .error ("Invalid OKLCH color: " ++ oklchStr)
  | some content =>
    let parts := ((splitOnChar ',' content).map (fun l => (⟨l⟩ : String))).filter (fun s => s ≠ "")
    match parts.get? 0, parts.get? 1, parts.get? 2 with
    | some p0, some p1, some p2 =>
      match jsParseFloat (jsReplaceFirst p0 "%" ""), jsParseFloat p1, jsParseFloat p2 with
      | some l0, some c0, some h0 =>
        let l := l0 / (if jsIncludes p0 "%" then 100 else 1)
        let aRes : Except String (Option ℚ) :=
          if 4 ≤ parts.length then
            match (parts.get? 3).bind jsParseFloat with
            | some q => .ok (some q)
            | none => .error "NaN oklch alpha (modelled)"
          else .ok none
        match aRes with
        | .error e => .error e
        | .ok a =>
          let oklch : OKLCH := { l := l, c := c0, h := h0, a := a }
          let rgb := approximateOklchToRgb oklch
          .ok { hex := rgbToHex rgb, rgb := rgb, hsl := some (rgbToHsl rgb), oklch := some oklch }
      | _, _, _ => .error "NaN oklch component (modelled)"
    | _, _, _ => .error "NaN oklch component (modelled)"

/-- Embedding of `parseColor`: dispatch on the literal prefix of the
whitespace-stripped input; unrecognized input falls back to opaque black
(the `console.warn` diagnostic is not modelled). -/
def parseColor (colorStr : String) : Except String ColorParse :=
  let cleanedStr := stripWs colorStr
  if jsStartsWith cleanedStr "oklch(" then parseOklchColor cleanedStr
  else if jsStartsWith cleanedStr "#" then parseHexColor cleanedStr
  else if jsStartsWith cleanedStr "rgb(" || jsStartsWith cleanedStr "rgba(" then
    parseRgbColor cleanedStr
  else if jsStartsWith cleanedStr "hsl(" || jsStartsWith cleanedStr "hsla(" then
    parseHslColor cleanedStr
  else
    .ok { hex := "#000000", rgb := { r := 0, g := 0, b := 0, a := none }, hsl := none, oklch := none }

/-- Embedding of `calculateColorDistance` by its square, unnormalized: the
source computes `sqrt q / (255 * sqrt 3)` for `q = Δr² + Δg² + Δb²`, an
irrational number.  Every use of the distance in the program is either a
strict comparison between two distances or a threshold comparison, and both
are embedded below by the equivalent exact comparisons of the squares (the
map `q ↦ sqrt q / (255 √3)` is strictly monotone on nonnegative inputs). -/
def calculateColorDistanceSq (c1 c2 : RGB) : ℚ :=
  (((c1.r - c2.r) ^ 2 + (c1.g - c2.g) ^ 2 + (c1.b - c2.b) ^ 2 : Int) : ℚ)

/-! ## Helper lemmas about the string primitives -/

theorem data_mk (l : List Char) : (String.mk l).data = l := rfl

theorem nil_isPrefixOf_true (l : List Char) : List.isPrefixOf ([] : List Char) l = true := by
  cases l <;> rfl

theorem isPrefixOf_cons_pair (a b : Char) (p l : List Char) :
    List.isPrefixOf (a :: p) (b :: l) = ((a == b) && List.isPrefixOf p l) := rfl

theorem startsWith_hash (l : List Char) : jsStartsWith ⟨'#' :: l⟩ "#" = true := by
  show List.isPrefixOf ['#'] ('#' :: l) = true
  rw [isPrefixOf_cons_pair, nil_isPrefixOf_true]
  rfl

theorem replaceFirst_hash (l : List Char) : jsReplaceFirst ⟨'#' :: l⟩ "#" "" = ⟨l⟩ := by
  show (⟨replaceFirstL ['#'] [] ('#' :: l)⟩ : String) = ⟨l⟩
  unfold replaceFirstL
  rw [isPrefixOf_cons_pair, nil_isPrefixOf_true]
  simp

/-! ## Claim C3 -/

/-- C3: for every input string whose whitespace-stripped form starts with
none of the six recognized prefixes, `parseColor` does not raise and returns
the degraded result equivalent to opaque black: hex `#000000` and rgb zero. -/
theorem parseColor_unrecognized_fallback (s : String)
    (h1 : jsStartsWith (stripWs s) "#" = false)
    (h2 : jsStartsWith (stripWs s) "rgb(" = false)
    (h3 : jsStartsWith (stripWs s) "rgba(" = false)
    (h4 : jsStartsWith (stripWs s) "hsl(" = false)
    (h5 : jsStartsWith (stripWs s) "hsla(" = false)
    (h6 : jsStartsWith (stripWs s) "oklch(" = false) :
    parseColor s = .ok { hex := "#000000", rgb := { r := 0, g := 0, b := 0, a := none }, hsl := none, oklch := none } := by
  simp only [parseColor]
  rw [h1, h2, h3, h4, h5, h6]
  simp

/-- Witness for C3 at the concrete unrecognized input `blue`. -/
theorem parseColor_unrecognized_fallback_witness :
    jsStartsWith (stripWs "blue") "#" = false ∧
    jsStartsWith (stripWs "blue") "oklch(" = false ∧
    parseColor "blue" = .ok { hex := "#000000", rgb := { r := 0, g := 0, b := 0, a := none }, hsl := none, oklch := none } :=
  ⟨by decide, by decide,
    parseColor_unrecognized_fallback "blue" (by decide) (by decide) (by decide)
      (by decide) (by decide) (by decide)⟩

/-! ## Claim C7 -/

theorem hexDigit_not_ws (k : Nat) : isJsWs (hexDigit k) = false := by
  unfold hexDigit
  split <;> decide

set_option maxRecDepth 8000 in
theorem hexPair_roundtrip_nat (n : Nat) (h : n < 256) :
    jsParseIntHex ⟨toHexPair (n : Int)⟩ = some (n : Int) := by
  revert h
  revert n
  decide

theorem hexPair_roundtrip_int (v : Int) (h0 : 0 ≤ v) (h1 : v ≤ 255) :
    jsParseIntHex ⟨toHexPair v⟩ = some v := by
  have hv : v = ((v.toNat : Nat) : Int) := (Int.toNat_of_nonneg h0).symm
  rw [hv]
  exact hexPair_roundtrip_nat v.toNat (by omega)

theorem toHexPair_not_ws (v : Int) : ∀ c ∈ toHexPair v, (!isJsWs c) = true := by
  intro c hc
  simp [toHexPair] at hc
  rcases hc with h | h <;> simp [h, hexDigit_not_ws]

/-- C7: for every RGB triple of integers in `[0, 255]` with no alpha,
parsing the hex string produced by `rgbToHex` back through `parseColor`
(which routes it to the hex branch) reproduces exactly the same triple. -/
theorem rgbToHex_parseColor_roundtrip (r g b : Int)
    (hr0 : 0 ≤ r) (hr1 : r ≤ 255) (hg0 : 0 ≤ g) (hg1 : g ≤ 255)
    (hb0 : 0 ≤ b) (hb1 : b ≤ 255) :
    (parseColor (rgbToHex { r := r, g := g, b := b, a := none })).toOption.map ColorParse.rgb
      = some { r := r, g := g, b := b, a := none } := by
  obtain ⟨d1, d2, hpr⟩ : ∃ d1 d2, toHexPair r = [d1, d2] := ⟨_, _, rfl⟩
  obtain ⟨d3, d4, hpg⟩ : ∃ d3 d4, toHexPair g = [d3, d4] := ⟨_, _, rfl⟩
  obtain ⟨d5, d6, hpb⟩ : ∃ d5 d6, toHexPair b = [d5, d6] := ⟨_, _, rfl⟩
  have hhex : rgbToHex { r := r, g := g, b := b, a := none }
      = ⟨'#' :: (toHexPair r ++ toHexPair g ++ toHexPair b)⟩ := by
    simp [rgbToHex]
  have hclean : stripWs ⟨'#' :: (toHexPair r ++ toHexPair g ++ toHexPair b)⟩
      = ⟨'#' :: (toHexPair r ++ toHexPair g ++ toHexPair b)⟩ := by
    unfold stripWs
    rw [data_mk]
    congr 1
    apply List.filter_eq_self.mpr
    intro c hc
    simp at hc
    rcases hc with h | h | h | h
    · rw [h]; decide
    · exact toHexPair_not_ws r c h
    · exact toHexPair_not_ws g c h
    · exact toHexPair_not_ws b c h
  have h1 : jsParseIntHex ⟨[d1, d2]⟩ = some r := by rw [← hpr]; exact hexPair_roundtrip_int r hr0 hr1
  have h2 : jsParseIntHex ⟨[d3, d4]⟩ = some g := by rw [← hpg]; exact hexPair_roundtrip_int g hg0 hg1
  have h3 : jsParseIntHex ⟨[d5, d6]⟩ = some b := by rw [← hpb]; exact hexPair_roundtrip_int b hb0 hb1
  rw [hhex]
  simp only [parseColor]
  rw [hclean]
  rw [show jsStartsWith ⟨'#' :: (toHexPair r ++ toHexPair g ++ toHexPair b)⟩ "oklch(" = false from rfl]
  rw [startsWith_hash]
  simp only [Bool.false_eq_true, if_false, if_true, parseHexColor]
  rw [replaceFirst_hash, hpr, hpg, hpb]
  simp only [List.cons_append, List.nil_append, data_mk]
  rw [show ([d1, d2, d3, d4, d5, d6] : List Char).take 2 = [d1, d2] from rfl]
  rw [show (([d1, d2, d3, d4, d5, d6] : List Char).drop 2).take 2 = [d3, d4] from rfl]
  rw [show (([d1, d2, d3, d4, d5, d6] : List Char).drop 4).take 2 = [d5, d6] from rfl]
  rw [h1, h2, h3]
  simp
  exact ⟨_, rfl, rfl⟩

/-- Witness for C7 at the concrete triple (37, 201, 208), the RGB of `#25C9D0`. -/
theorem rgbToHex_parseColor_roundtrip_witness :
    (parseColor (rgbToHex { r := 37, g := 201, b := 208, a := none })).toOption.map ColorParse.rgb
      = some { r := 37, g := 201, b := 208, a := none } :=
  rgbToHex_parseColor_roundtrip 37 201 208 (by decide) (by decide) (by decide) (by decide)
    (by decide) (by decide)

/-! ## Token data model (src/core/types.ts) -/

/-- The `TokenCategory` union of core/types.ts. -/
inductive TokenCategory
  | color
  | typography
  | spacing
  | borderRadius
  | shadow
deriving DecidableEq, Repr

/-- `ColorToken` of core/types.ts.  Its `value` field has exactly the field
shape of the `parseColor` result, so the embedding reuses `ColorParse`. -/
structure ColorToken where
  name : String
  cssVariable : String
  tailwindClass : Option String := none
  description : Option String := none
  originalValue : String
  value : ColorParse
deriving DecidableEq, Repr

/-- A JavaScript `string | number` union value (typography fields). -/
inductive StrOrNum
  | str (s : String)
  | num (q : ℚ)
deriving DecidableEq, Repr

/-- The accumulating `value` record of `TypographyToken`. -/
structure TypographyValue where
  fontFamily : Option String := none
  fontSize : Option String := none
  fontWeight : Option StrOrNum := none
  lineHeight : Option StrOrNum := none
  letterSpacing : Option String := none
deriving DecidableEq, Repr

/-- `TypographyToken` of core/types.ts. -/
structure TypographyToken where
  name : String
  cssVariable : String
  tailwindClass : Option String := none
  description : Option String := none
  value : TypographyValue
deriving DecidableEq, Repr

/-- `SpacingToken` of core/types.ts. -/
structure SpacingToken where
  name : String
  cssVariable : String
  tailwindClass : Option String := none
  description : Option String := none
  value : String
deriving DecidableEq, Repr

/-- `BorderRadiusToken` of core/types.ts. -/
structure BorderRadiusToken where
  name : String
  cssVariable : String
  tailwindClass : Option String := none
  description : Option String := none
  value : String
deriving DecidableEq, Repr

/-- One parsed shadow layer.  `x`/`y` may be `undefined` in the source when a
layer has fewer components than expected (array indexing past the end), so
they are optional here; `blur`, `spread` and `color` always receive a string
through the `|| default` fallbacks. -/
structure ShadowComponent where
  inset : Bool
  x : Option String
  y : Option String
  blur : String
  spread : String
  color : String
deriving DecidableEq, Repr

/-- `ShadowToken` of core/types.ts. -/
structure ShadowToken where
  name : String
  cssVariable : String
  tailwindClass : Option String := none
  description : Option String := none
  value : String
  components : Option (List ShadowComponent) := none
deriving DecidableEq, Repr

/-- The `DesignToken` union of core/types.ts. -/
inductive DesignToken
  | color (t : ColorToken)
  | typography (t : TypographyToken)
  | spacing (t : SpacingToken)
  | borderRadius (t : BorderRadiusToken)
  | shadow (t : ShadowToken)
deriving DecidableEq, Repr

/-- The `category` discriminant of a design token. -/
def DesignToken.category : DesignToken → TokenCategory
  | .color _ => .color
  | .typography _ => .typography
  | .spacing _ => .spacing
  | .borderRadius _ => .borderRadius
  | .shadow _ => .shadow

/-- The `name` field of a design token. -/
def DesignToken.name : DesignToken → String
  | .color t => t.name
  | .typography t => t.name
  | .spacing t => t.name
  | .borderRadius t => t.name
  | .shadow t => t.name

/-- The `cssVariable` field of a design token. -/
def DesignToken.cssVariable : DesignToken → String
  | .color t => t.cssVariable
  | .typography t => t.cssVariable
  | .spacing t => t.cssVariable
  | .borderRadius t => t.cssVariable
  | .shadow t => t.cssVariable

/-- The optional `tailwindClass` field of a design token. -/
def DesignToken.tailwindClass : DesignToken → Option String
  | .color t => t.tailwindClass
  | .typography t => t.tailwindClass
  | .spacing t => t.tailwindClass
  | .borderRadius t => t.tailwindClass
  | .shadow t => t.tailwindClass

/-- Value of the `confidence` field of a token match.  The source stores a
JavaScript number: the literal `1` on every exact-match and exact-equality
path, and otherwise `1 - sqrt q / (255 * sqrt 3)` where `q` is the squared
RGB distance to the nearest token — an irrational number.  The embedding
keeps the literal `1` as `.one` and keeps the defining square `q`
symbolically in `.ofDistSq q` (see `calculateColorDistanceSq`). -/
inductive ConfVal
  | one
  | ofDistSq (q : ℚ)
deriving DecidableEq, Repr

/-- `TokenMatch` of core/types.ts. -/
structure TokenMatch where
  token : DesignToken
  confidence : ConfVal
  originalValue : String
deriving DecidableEq, Repr

/-- `TokenMatchOptions` of core/types.ts (all fields optional). -/
structure TokenMatchOptions where
  threshold : Option ℚ := none
  categories : Option (List TokenCategory) := none
  exact : Option Bool := none
deriving DecidableEq, Repr

/-- `TokenRegistryOptions`.  `cssPath` (file-system loading via
`fs.readFile`) is input/output outside the embedding; every claim below
supplies `cssContent`. -/
structure TokenRegistryOptions where
  cssContent : Option String := none
  normalizeColors : Option Bool := none
deriving DecidableEq, Repr

/-- The mutable state of a `TokenRegistry` instance: the five token arrays,
the CSS variable map (insertion-ordered, as a JavaScript `Map`), and the
`initialized` flag. -/
structure TokenRegistry where
  colorTokens : List ColorToken := []
  typographyTokens : List TypographyToken := []
  spacingTokens : List SpacingToken := []
  borderRadiusTokens : List BorderRadiusToken := []
  shadowTokens : List ShadowToken := []
  cssVars : List (String × String) := []
  initialized : Bool := false
deriving DecidableEq, Repr

/-! ## TokenRegistry: CSS variable extraction (parseCssVariables) -/

/-- The character class `[a-zA-Z0-9_-]` of the variable-name capture. -/
def isVarNameChar (c : Char) : Bool :=
  ('a' ≤ c && c ≤ 'z') || ('A' ≤ c && c ≤ 'Z') || isDigitC c || c = '_' || c = '-'

/-- Attempt to match the declaration regex `--([a-zA-Z0-9_-]+)\s*:\s*([^;]+);`
at the head of the list.  Returns the two captured groups and the length of
the whole match.  The `\s*` before the value is greedy but backtracks so
that `[^;]+` keeps at least one character, exactly as the regex engine
does. -/
def tryCssVarAt (l : List Char) : Option (List Char × List Char × Nat) :=
  match l with
  | '-' :: '-' :: rest =>
    let name := rest.takeWhile isVarNameChar
    if name.isEmpty then none
    else
      let afterName := rest.drop name.length
      let ws1 := afterName.takeWhile isJsWs
      match afterName.drop ws1.length with
      | ':' :: afterColon =>
        let t := afterColon.takeWhile (fun c => c ≠ ';')
        if t.isEmpty then none
        else
          match afterColon.drop t.length with
          | ';' :: _ =>
            let w := (t.takeWhile isJsWs).length
            let value := t.drop (min w (t.length - 1))
            some (name, value, 2 + name.length + ws1.length + 1 + t.length + 1)
          | _ => none
      | _ => none
  | _ => none

/-- Global scan of the declaration regex: on a match the cursor jumps past
the match, otherwise it advances one character.  Fuel is the input length
(every step consumes at least one character). -/
def scanCssVars : Nat → List Char → List (String × String)
  | 0, _ => []
  | _, [] => []
  | fuel + 1, c :: rest =>
    match tryCssVarAt (c :: rest) with
    | some (name, value, len) =>
      (jsTrim ⟨name⟩, jsTrim ⟨value⟩) :: scanCssVars fuel ((c :: rest).drop len)
    | none => scanCssVars fuel rest

/-- `Map.prototype.set`: updates the value in place if the key exists
(keeping its position), otherwise appends. -/
def mapSet (m : List (String × String)) (k v : String) : List (String × String) :=
  if m.any (fun e => e.1 = k) then m.map (fun e => if e.1 = k then (k, v) else e)
  else m ++ [(k, v)]

/-- Embedding of `parseCssVariables`: every declaration found in the content
is stored in the variable map under the `--`-prefixed name; a repeated name
keeps the last value. -/
def parseCssVariables (cssVars : List (String × String)) (cssContent : String) :
    List (String × String) :=
  (scanCssVars cssContent.data.length cssContent.data).foldl
    (fun m nv => mapSet m ("--" ++ nv.1) nv.2) cssVars

/-! ## TokenRegistry: value classification (isColorValue, isTypographyProperty) -/

/-- Consume a literal; `none` on mismatch. -/
def eatLit (pat : List Char) (l : List Char) : Option (List Char) :=
  if pat.isPrefixOf l then some (l.drop pat.length) else none

/-- Consume `\s*`. -/
def eatWs (l : List Char) : List Char := l.dropWhile isJsWs

/-- Consume `\s+`. -/
def eatWs1 (l : List Char) : Option (List Char) :=
  let w := l.takeWhile isJsWs
  if w.isEmpty then none else some (l.drop w.length)

/-- Consume `\d+`. -/
def eatDigits1 (l : List Char) : Option (List Char) :=
  let d := l.takeWhile isDigitC
  if d.isEmpty then none else some (l.drop d.length)

/-- Consume `[\d.]+`. -/
def eatNumDot1 (l : List Char) : Option (List Char) :=
  let d := l.takeWhile (fun c => isDigitC c || c = '.')
  if d.isEmpty then none else some (l.drop d.length)

/-- `^#[0-9a-fA-F]{3,8}$`. -/
def matchHexColor (l : List Char) : Bool :=
  match l with
  | '#' :: rest => rest.all isHexDigitC && decide (3 ≤ rest.length) && decide (rest.length ≤ 8)
  | _ => false

/-- `^rgb\(\s*\d+\s*,\s*\d+\s*,\s*\d+\s*\)$`. -/
def matchRgbColor (l : List Char) : Bool :=
  (do
    let l ← eatLit "rgb(".data l
    let l ← eatDigits1 (eatWs l)
    let l ← eatLit [','] (eatWs l)
    let l ← eatDigits1 (eatWs l)
    let l ← eatLit [','] (eatWs l)
    let l ← eatDigits1 (eatWs l)
    let l ← eatLit [')'] (eatWs l)
    pure l.isEmpty).getD false

/-- `^rgba\(\s*\d+\s*,\s*\d+\s*,\s*\d+\s*,\s*[\d.]+\s*\)$`. -/
def matchRgbaColor (l : List Char) : Bool :=
  (do
    let l ← eatLit "rgba(".data l
    let l ← eatDigits1 (eatWs l)
    let l ← eatLit [','] (eatWs l)
    let l ← eatDigits1 (eatWs l)
    let l ← eatLit [','] (eatWs l)
    let l ← eatDigits1 (eatWs l)
    let l ← eatLit [','] (eatWs l)
    let l ← eatNumDot1 (eatWs l)
    let l ← eatLit [')'] (eatWs l)
    pure l.isEmpty).getD false

/-- `^hsl\(\s*\d+\s*,\s*\d+%\s*,\s*\d+%\s*\)$`. -/
def matchHslColor (l : List Char) : Bool :=
  (do
    let l ← eatLit "hsl(".data l
    let l ← eatDigits1 (eatWs l)
    let l ← eatLit [','] (eatWs l)
    let l ← eatDigits1 (eatWs l)
    let l ← eatLit ['%'] l
    let l ← eatLit [','] (eatWs l)
    let l ← eatDigits1 (eatWs l)
    let l ← eatLit ['%'] l
    let l ← eatLit [')'] (eatWs l)
    pure l.isEmpty).getD false

/-- `^hsla\(\s*\d+\s*,\s*\d+%\s*,\s*\d+%\s*,\s*[\d.]+\s*\)$`. -/
def matchHslaColor (l : List Char) : Bool :=
  (do
    let l ← eatLit "hsla(".data l
    let l ← eatDigits1 (eatWs l)
    let l ← eatLit [','] (eatWs l)
    let l ← eatDigits1 (eatWs l)
    let l ← eatLit ['%'] l
    let l ← eatLit [','] (eatWs l)
    let l ← eatDigits1 (eatWs l)
    let l ← eatLit ['%'] l
    let l ← eatLit [','] (eatWs l)
    let l ← eatNumDot1 (eatWs l)
    let l ← eatLit [')'] (eatWs l)
    pure l.isEmpty).getD false

/-- `^oklch\(\s*[\d.]+%?\s+[\d.]+\s+[\d.]+\s*\)$`. -/
def matchOklchColor (l : List Char) : Bool :=
  (do
    let l ← eatLit "oklch(".data l
    let l ← eatNumDot1 (eatWs l)
    let l := (eatLit ['%'] l).getD l
    let l ← eatNumDot1 (← eatWs1 l)
    let l ← eatNumDot1 (← eatWs1 l)
    let l ← eatLit [')'] (eatWs l)
    pure l.isEmpty).getD false

/-- Embedding of `isColorValue`: the value matches one of the six anchored
color-format regexes after trimming. -/
def isColorValue (value : String) : Bool :=
  let t := (jsTrim value).data
  matchHexColor t || matchRgbColor t || matchRgbaColor t || matchHslColor t ||
    matchHslaColor t || matchOklchColor t

/-- Embedding of `isTypographyProperty`. -/
def isTypographyProperty (cssVariable : String) : Bool :=
  ["font-family", "font-size", "font-weight", "line-height", "letter-spacing", "text-"].any
    (fun p => jsIncludes cssVariable p)

/-! ## TokenRegistry: name derivation and token creation -/

/-- The `replace` removing a leading double dash (regex anchored at the
start). -/
def stripLeadingDashes (s : String) : String :=
  match s.data with
  | '-' :: '-' :: rest => ⟨rest⟩
  | _ => s

/-- `replace(/^(color-|font-|spacing-|border-radius-|shadow-)/, '')`. -/
def stripCategoryPfx (s : String) : String :=
  if jsStartsWith s "color-" then ⟨s.data.drop 6⟩
  else if jsStartsWith s "font-" then ⟨s.data.drop 5⟩
  else if jsStartsWith s "spacing-" then ⟨s.data.drop 8⟩
  else if jsStartsWith s "border-radius-" then ⟨s.data.drop 14⟩
  else if jsStartsWith s "shadow-" then ⟨s.data.drop 7⟩
  else s

/-- Embedding of `getNameFromCssVariable`. -/
def getNameFromCssVariable (cssVariable : String) : String :=
  stripCategoryPfx (stripLeadingDashes cssVariable)

/-- Embedding of `createColorToken`: wraps `parseColor`; a thrown parse
error is caught (diagnostic only) and the single token is skipped. -/
def createColorToken (s : TokenRegistry) (name cssVariable value : String) : TokenRegistry :=
  match parseColor value with
  | .ok cf =>
    let token : ColorToken :=
      { name := name, cssVariable := cssVariable, originalValue := value
        value := { hex := cf.hex, rgb := cf.rgb, hsl := cf.hsl, oklch := cf.oklch }
        tailwindClass := if jsStartsWith cssVariable "--color-" then some ("text-" ++ name) else none }
    { s with colorTokens := s.colorTokens ++ [token] }
  | .error _ => s

/-- Embedding of `createSpacingToken`. -/
def createSpacingToken (s : TokenRegistry) (name cssVariable value : String) : TokenRegistry :=
  let token : SpacingToken :=
    { name := name, cssVariable := cssVariable, value := value
      tailwindClass := if jsStartsWith cssVariable "--spacing-" then some ("p-" ++ name) else none }
  { s with spacingTokens := s.spacingTokens ++ [token] }

/-- Embedding of `createBorderRadiusToken`. -/
def createBorderRadiusToken (s : TokenRegistry) (name cssVariable value : String) : TokenRegistry :=
  let token : BorderRadiusToken :=
    { name := name, cssVariable := cssVariable, value := value
      tailwindClass := if jsStartsWith cssVariable "--border-radius-" then some ("rounded-" ++ name) else none }
  { s with borderRadiusTokens := s.borderRadiusTokens ++ [token] }

/-- The shadow layer splitter: a comma separates layers unless the regex
lookahead sees a closing parenthesis before any opening one (i.e. the comma
sits inside parentheses). -/
def shadowSplit : List Char → List (List Char)
  | [] => [[]]
  | c :: rest =>
    let r := shadowSplit rest
    if c = ',' && !((rest.takeWhile (fun ch => ch ≠ '(')).contains ')') then
      [] :: r
    else
      match r with
      | [] => [[c]]
      | h :: t => (c :: h) :: t

/-- Split a trimmed string on whitespace runs (`split(/\s+/)` after
`trim()`); the empty input yields one empty field, as in JavaScript. -/
def wsRunsGo (cur : List Char) : List Char → List (List Char)
  | [] => if cur.isEmpty then [] else [cur.reverse]
  | c :: rest =>
    if isJsWs c then
      if cur.isEmpty then wsRunsGo [] rest
      else cur.reverse :: wsRunsGo [] rest
    else wsRunsGo (c :: cur) rest

/-- String split on whitespace runs; `[""]` for the empty input. -/
def splitWsRuns (l : List Char) : List (List Char) :=
  match l with
  | [] => [[]]
  | _ => wsRunsGo [] l

/-- The `|| default` fallback on a possibly-undefined string: `undefined`
and the empty string are falsy. -/
def jsOrDefault (o : Option String) (d : String) : String :=
  match o with
  | some s => if s = "" then d else s
  | none => d

/-- Embedding of `parseShadowComponents`.  Nothing in the body can throw
(indexing past the end of an array yields `undefined`), so the try/catch
around the call site never fires and the components are always present. -/
def parseShadowComponents (shadowValue : String) : List ShadowComponent :=
  (shadowSplit shadowValue.data).map (fun part =>
    let components := (splitWsRuns (jsTrim ⟨part⟩).data).map (fun l => (⟨l⟩ : String))
    let hasInset := components.get? 0 = some "inset"
    let si := if hasInset then 1 else 0
    { inset := hasInset
      x := components.get? si
      y := components.get? (si + 1)
      blur := jsOrDefault (components.get? (si + 2)) "0"
      spread := jsOrDefault (components.get? (si + 3)) "0"
      color :=
        let joined := String.intercalate " " (components.drop (si + 4))
        if joined = "" then "currentColor" else joined })

/-- Embedding of `createShadowToken`. -/
def createShadowToken (s : TokenRegistry) (name cssVariable value : String) : TokenRegistry :=
  let token : ShadowToken :=
    { name := name, cssVariable := cssVariable, value := value
      components := some (parseShadowComponents value)
      tailwindClass := if jsStartsWith cssVariable "--shadow-" then some ("shadow-" ++ name) else none }
  { s with shadowTokens := s.shadowTokens ++ [token] }

/-- `String.prototype.endsWith`. -/
def jsEndsWith (s p : String) : Bool :=
  p.data.isSuffixOf s.data

/-- Drop the last `n` characters of a string. -/
def dropLastChars (s : String) (n : Nat) : String :=
  ⟨s.data.take (s.data.length - n)⟩

/-- The typography suffix strip: regex alternation anchored at the end,
removing `-font-family|-font-size|-font-weight|-font-style`, `-line-height`
or `-letter-spacing`; the alternatives end in distinct characters, so at
most one can match. -/
def stripTypoSuffix (name : String) : String :=
  if jsEndsWith name "-font-family" then dropLastChars name 12
  else if jsEndsWith name "-font-size" then dropLastChars name 10
  else if jsEndsWith name "-font-weight" then dropLastChars name 12
  else if jsEndsWith name "-font-style" then dropLastChars name 11
  else if jsEndsWith name "-line-height" then dropLastChars name 12
  else if jsEndsWith name "-letter-spacing" then dropLastChars name 15
  else name

/-- Embedding of `Number(value)`: trims, maps the empty string to `0`, and
otherwise requires the whole string to be a (decimal, optionally signed and
exponent-carrying) numeral; `none` stands for `NaN`.  (Hexadecimal and
Infinity forms of `Number` do not occur in token values.) -/
def jsNumber (s : String) : Option ℚ :=
  let t := (jsTrim s).data
  if t.isEmpty then some 0
  else
    let (sign, l) : ℚ × List Char :=
      match t with
      | '-' :: r => (-1, r)
      | '+' :: r => (1, r)
      | l => (1, l)
    let ip := l.takeWhile isDigitC
    let l := l.drop ip.length
    let (fp, l) : List Char × List Char :=
      match l with
      | '.' :: r => (r.takeWhile isDigitC, r.drop (r.takeWhile isDigitC).length)
      | l => ([], l)
    if ip.isEmpty && fp.isEmpty then none
    else
      let base : ℚ := sign * ((decFold ip : ℚ) + (decFold fp : ℚ) / (10 : ℚ) ^ fp.length)
      match l with
      | [] => some base
      | 'e' :: r | 'E' :: r =>
        let (es, r2) : Int × List Char :=
          match r with
          | '-' :: r2 => (-1, r2)
          | '+' :: r2 => (1, r2)
          | r2 => (1, r2)
        let ds := r2.takeWhile isDigitC
        if ds.isEmpty || !(r2.drop ds.length).isEmpty then none
        else some (base * (10 : ℚ) ^ (es * (decFold ds : Nat)))
      | _ => none

/-- `isNaN(Number(value)) ? value : Number(value)`. -/
def numOrStr (value : String) : StrOrNum :=
  match jsNumber value with
  | some q => .num q
  | none => .str value

/-- Update the first element satisfying the predicate (the source mutates
the token object returned by `find`). -/
def updateFirst (p : TypographyToken → Bool) (f : TypographyToken → TypographyToken) :
    List TypographyToken → List TypographyToken
  | [] => []
  | t :: rest => if p t then f t :: rest else t :: updateFirst p f rest

/-- Embedding of `createOrUpdateTypographyToken`: find or create the token
with the derived base name, then update the field selected by the variable
name. -/
def createOrUpdateTypographyToken (s : TokenRegistry) (name cssVariable value : String) :
    TokenRegistry :=
  let baseName := stripTypoSuffix name
  let toks :=
    if s.typographyTokens.any (fun t => t.name = baseName) then s.typographyTokens
    else s.typographyTokens ++
      [{ name := baseName, cssVariable := "--" ++ baseName, value := {} }]
  let upd (t : TypographyToken) : TypographyToken :=
    if jsIncludes cssVariable "font-family" then
      { t with value := { t.value with fontFamily := some value } }
    else if jsIncludes cssVariable "font-size" then
      { t with value := { t.value with fontSize := some value } }
    else if jsIncludes cssVariable "font-weight" then
      { t with value := { t.value with fontWeight := some (numOrStr value) } }
    else if jsIncludes cssVariable "line-height" then
      { t with value := { t.value with lineHeight := some (numOrStr value) } }
    else if jsIncludes cssVariable "letter-spacing" then
      { t with value := { t.value with letterSpacing := some value } }
    else t
  { s with typographyTokens := updateFirst (fun t => t.name = baseName) upd toks }

/-- One step of the `createTokens` loop for a single variable entry. -/
def createTokensStep (s : TokenRegistry) (e : String × String) : TokenRegistry :=
  let cssVariable := e.1
  let value := e.2
  if jsStartsWith value "var(" then s
  else
    let name := getNameFromCssVariable cssVariable
    if isColorValue value then createColorToken s name cssVariable value
    else if jsIncludes cssVariable "spacing" then createSpacingToken s name cssVariable value
    else if jsIncludes cssVariable "border-radius" then createBorderRadiusToken s name cssVariable value
    else if jsIncludes cssVariable "shadow" then createShadowToken s name cssVariable value
    else if isTypographyProperty cssVariable then createOrUpdateTypographyToken s name cssVariable value
    else s

/-- Embedding of `createTokens`: iterate the variable map in insertion
order. -/
def createTokens (s : TokenRegistry) : TokenRegistry :=
  s.cssVars.foldl createTokensStep s

/-- Embedding of `initialize`: a second call is an early no-op; with no CSS
source a usage error is thrown; otherwise parse the variables, build the
tokens and set the flag.  (`cssPath` file loading is input/output, outside
the embedding.) -/
def initializeE (opts : TokenRegistryOptions) (s : TokenRegistry) : Except String TokenRegistry :=
  if s.initialized then .ok s
  else
    match opts.cssContent with
    | none => .error "No CSS source provided. Specify cssPath or cssContent."
    | some cssContent =>
      let s1 := { s with cssVars := parseCssVariables s.cssVars cssContent }
      let s2 := createTokens s1
      .ok { s2 with initialized := true }

/-- The registry obtained by constructing a fresh instance and initializing
it from literal CSS content. -/
def initRegistry (css : String) : TokenRegistry :=
  let s1 : TokenRegistry := { cssVars := parseCssVariables [] css }
  let s2 := createTokens s1
  { s2 with initialized := true }

theorem initializeE_fresh (css : String) :
    initializeE { cssContent := some css } {} = .ok (initRegistry css) := rfl

/-! ## TokenRegistry: query surface -/

/-- Embedding of `getTokensByCategory`.  The source returns a fresh copy
`[...array]` of the internal array; the aliasing aspect is modelled
separately (heap model, claim C9), the content here.  The method performs
no initialization check. -/
def getTokensByCategory (s : TokenRegistry) (category : TokenCategory) : List DesignToken :=
  match category with
  | .color => s.colorTokens.map DesignToken.color
  | .typography => s.typographyTokens.map DesignToken.typography
  | .spacing => s.spacingTokens.map DesignToken.spacing
  | .borderRadius => s.borderRadiusTokens.map DesignToken.borderRadius
  | .shadow => s.shadowTokens.map DesignToken.shadow

/-- Embedding of `getAllTokens`: a fresh array concatenating the five
categories in declaration order.  No initialization check. -/
def getAllTokens (s : TokenRegistry) : List DesignToken :=
  s.colorTokens.map DesignToken.color ++
  s.typographyTokens.map DesignToken.typography ++
  s.spacingTokens.map DesignToken.spacing ++
  s.borderRadiusTokens.map DesignToken.borderRadius ++
  s.shadowTokens.map DesignToken.shadow

/-- Embedding of `findTokenByName`: first token whose name, raw variable,
`--`-prefixed variable or tailwind alias equals the query.  No
initialization check. -/
def findTokenByName (s : TokenRegistry) (name : String) : Option DesignToken :=
  (getAllTokens s).find? (fun token =>
    token.name == name || token.cssVariable == name ||
    token.cssVariable == "--" ++ name || token.tailwindClass == some name)

/-- Embedding of `findTokenByCssVariable`: exact match only.  No
initialization check. -/
def findTokenByCssVariable (s : TokenRegistry) (cssVariable : String) : Option DesignToken :=
  (getAllTokens s).find? (fun token => token.cssVariable == cssVariable)

/-- The structure returned by `getTokenCounts` (a fresh object of numbers). -/
structure TokenCounts where
  color : Nat
  typography : Nat
  spacing : Nat
  borderRadius : Nat
  shadow : Nat
deriving DecidableEq, Repr

/-- Embedding of `getTokenCounts`.  No initialization check. -/
def getTokenCounts (s : TokenRegistry) : TokenCounts :=
  { color := s.colorTokens.length
    typography := s.typographyTokens.length
    spacing := s.spacingTokens.length
    borderRadius := s.borderRadiusTokens.length
    shadow := s.shadowTokens.length }

/-- The nearest-token loop of `findClosestColorMatch`: starts from
`smallestDistance = Infinity` (here: no candidate) and keeps the strictly
smaller squared distance, so the first token of a tie is kept, exactly as
the `<` comparison does in the source. -/
def nearestColorLoop (target : RGB) (tokens : List ColorToken) : Option (ColorToken × ℚ) :=
  tokens.foldl
    (fun best token =>
      let d := calculateColorDistanceSq target token.value.rgb
      match best with
      | none => some (token, d)
      | some (_, d0) => if d < d0 then some (token, d) else best)
    none

/-- The threshold test `1 - sqrt q / (255 √3) ≥ threshold`, stated exactly
on the square: both sides of `sqrt q ≤ 255 √3 (1 - t)` are nonnegative when
`1 - t ≥ 0`, so it is equivalent to `q ≤ 195075 (1 - t)²`; for `1 - t < 0`
the confidence (at most 1) cannot reach the threshold. -/
def meetsThreshold (q t : ℚ) : Bool :=
  decide (0 ≤ 1 - t) && decide (q ≤ 195075 * (1 - t) ^ 2)

/-- Embedding of `findClosestColorMatch`.  Throws a usage error before
initialization; the body catch turns any parse error of the input value
into a no-match result. -/
def findClosestColorMatchE (s : TokenRegistry) (colorValue : String)
    (options : TokenMatchOptions) : Except String (Option TokenMatch) :=
  if !s.initialized then
    .error "TokenRegistry not initialized. Call initialize() first."
  else
    match parseColor colorValue with
    | .error _ => .ok none
    | .ok targetColor =>
      let threshold := options.threshold.getD (85 / 100)
      let colorTokens := s.colorTokens
      match colorTokens.find? (fun token =>
          jsToLower token.value.hex == jsToLower targetColor.hex) with
      | some exactMatch =>
        .ok (some { token := .color exactMatch, confidence := .one, originalValue := colorValue })
      | none =>
        if options.exact.getD false then .ok none
        else
          match nearestColorLoop targetColor.rgb colorTokens with
          | some (closestToken, q) =>
            if meetsThreshold q threshold then
              .ok (some { token := .color closestToken, confidence := .ofDistSq q, originalValue := colorValue })
            else .ok none
          | none => .ok none

/-- The shadow step of `findBestMatch` (exact string equality, the final
fallthrough before the no-match result). -/
def bestMatchShadow (s : TokenRegistry) (value : String) (category : Option TokenCategory) :
    Option TokenMatch :=
  if category.isNone || category == some .shadow then
    match s.shadowTokens.find? (fun token => token.value == value) with
    | some shadowMatch =>
      some { token := .shadow shadowMatch, confidence := .one, originalValue := value }
    | none => none
  else none

/-- The border-radius step of `findBestMatch` (exact string equality),
falling through to the shadow step. -/
def bestMatchRadius (s : TokenRegistry) (value : String) (category : Option TokenCategory) :
    Option TokenMatch :=
  if category.isNone || category == some .borderRadius then
    match s.borderRadiusTokens.find? (fun token => token.value == value) with
    | some radiusMatch =>
      some { token := .borderRadius radiusMatch, confidence := .one, originalValue := value }
    | none => bestMatchShadow s value category
  else bestMatchShadow s value category

/-- Embedding of `findBestMatch`: color (only when the value looks like a
color) then spacing, border radius and shadow by exact string equality, in
this fixed order.  Throws a usage error before initialization. -/
def findBestMatchE (s : TokenRegistry) (value : String) (category : Option TokenCategory)
    (options : TokenMatchOptions) : Except String (Option TokenMatch) :=
  if !s.initialized then
    .error "TokenRegistry not initialized. Call initialize() first."
  else
    let tryColor : Except String (Option TokenMatch) :=
      if (category.isNone || category == some .color) && isColorValue value then
        findClosestColorMatchE s value options
      else .ok none
    match tryColor with
    | .error e => .error e
    | .ok (some colorMatch) => .ok (some colorMatch)
    | .ok none =>
      if category.isNone || category == some .spacing then
        match s.spacingTokens.find? (fun token => token.value == value) with
        | some spacingMatch =>
          .ok (some { token := .spacing spacingMatch, confidence := .one, originalValue := value })
        | none => .ok (bestMatchRadius s value category)
      else .ok (bestMatchRadius s value category)

/-- Embedding of `exportTokensToJson`: the initialization guard plus the
token list that would be serialized; the `JSON.stringify` text and the file
write are input/output at the component boundary, outside the embedding. -/
def exportTokensToJsonE (s : TokenRegistry) : Except String (List DesignToken) :=
  if !s.initialized then
    .error "TokenRegistry not initialized. Call initialize() first."
  else .ok (getAllTokens s)

/-! ## Except-typed views of the unguarded query methods

The five query methods `getTokensByCategory`, `getAllTokens`,
`findTokenByName`, `findTokenByCssVariable` and `getTokenCounts` contain no
initialization check and no `throw` in the source; their bodies are total.
To state claims about usage errors uniformly, each also gets a view with
the same failure channel as the guarded methods — necessarily always
`.ok`. -/

/-- `getTokensByCategory` with the failure channel (no guard in source). -/
def getTokensByCategoryE (s : TokenRegistry) (category : TokenCategory) :
    Except String (List DesignToken) :=
  .ok (getTokensByCategory s category)

/-- `getAllTokens` with the failure channel (no guard in source). -/
def getAllTokensE (s : TokenRegistry) : Except String (List DesignToken) :=
  .ok (getAllTokens s)

/-- `findTokenByName` with the failure channel (no guard in source). -/
def findTokenByNameE (s : TokenRegistry) (name : String) : Except String (Option DesignToken) :=
  .ok (findTokenByName s name)

/-- `findTokenByCssVariable` with the failure channel (no guard in source). -/
def findTokenByCssVariableE (s : TokenRegistry) (cssVariable : String) :
    Except String (Option DesignToken) :=
  .ok (findTokenByCssVariable s cssVariable)

/-- `getTokenCounts` with the failure channel (no guard in source). -/
def getTokenCountsE (s : TokenRegistry) : Except String TokenCounts :=
  .ok (getTokenCounts s)

/-! ## Claim C2 (corrected) -/

/-- C2 counterexample: on a freshly constructed, uninitialized registry the
claim says every query method fails with a usage error; but
`getAllTokens`, `getTokensByCategory`, `findTokenByName`,
`findTokenByCssVariable` and `getTokenCounts` have no initialization guard
and succeed with results computed from the empty token state. -/
theorem registry_unguarded_queries_counterexample :
    ({} : TokenRegistry).initialized = false ∧
    getAllTokensE {} = .ok [] ∧
    getTokensByCategoryE {} .color = .ok [] ∧
    findTokenByNameE {} "primary" = .ok none ∧
    findTokenByCssVariableE {} "--color-primary" = .ok none ∧
    getTokenCountsE {} = .ok { color := 0, typography := 0, spacing := 0, borderRadius := 0, shadow := 0 } := by
  refine ⟨rfl, ?_, ?_, ?_, ?_, ?_⟩ <;> decide

/-- C2 amended: the registry is a one-way state machine from uninitialized
to initialized, and a second `initialize` call is a no-op returning the
state unchanged; but only `findClosestColorMatch`, `findBestMatch` and
`exportTokensToJson` fail with a usage error before initialization — the
five other query methods perform no check and return results computed from
the empty token state. -/
theorem registry_state_machine_amended (s : TokenRegistry) (opts : TokenRegistryOptions)
    (v : String) (cat : Option TokenCategory) (mo : TokenMatchOptions) :
    (s.initialized = false →
      findClosestColorMatchE s v mo = .error "TokenRegistry not initialized. Call initialize() first." ∧
      findBestMatchE s v cat mo = .error "TokenRegistry not initialized. Call initialize() first." ∧
      exportTokensToJsonE s = .error "TokenRegistry not initialized. Call initialize() first." ∧
      (∃ r, getAllTokensE s = .ok r) ∧ (∃ r, getTokenCountsE s = .ok r)) ∧
    (s.initialized = true → initializeE opts s = .ok s) ∧
    (∀ s2, initializeE opts s = .ok s2 → s2.initialized = true) := by
  refine ⟨?_, ?_, ?_⟩
  · intro h
    refine ⟨?_, ?_, ?_, ⟨_, rfl⟩, ⟨_, rfl⟩⟩
    · simp [findClosestColorMatchE, h]
    · simp [findBestMatchE, h]
    · simp [exportTokensToJsonE, h]
  · intro h
    simp [initializeE, h]
  · intro s2 h2
    unfold initializeE at h2
    split at h2
    · cases h2
      assumption
    · split at h2
      · cases h2
      · cases h2
        rfl

/-- Witness for the amended C2: the usage error on an uninitialized
registry and the second-call no-op on an initialized one. -/
theorem registry_state_machine_amended_witness :
    (findClosestColorMatchE {} "x" {} = .error "TokenRegistry not initialized. Call initialize() first." ∧
      findBestMatchE {} "x" none {} = .error "TokenRegistry not initialized. Call initialize() first." ∧
      exportTokensToJsonE {} = .error "TokenRegistry not initialized. Call initialize() first." ∧
      (∃ r, getAllTokensE ({} : TokenRegistry) = .ok r) ∧ (∃ r, getTokenCountsE ({} : TokenRegistry) = .ok r)) ∧
    initializeE { cssContent := some "" } (initRegistry "") = .ok (initRegistry "") :=
  ⟨(registry_state_machine_amended {} { cssContent := some "" } "x" none {}).1 rfl,
    (registry_state_machine_amended (initRegistry "") { cssContent := some "" } "x" none {}).2.1 rfl⟩

/-! ## Claim C4 -/

/-- The CSS of the C4 scenario: a single declaration `--spacing-sm: 1rem;`. -/
def spacingScenarioCss : String := ":root \x7b\n  --spacing-sm: 1rem;\n\x7d"

/-- C4: after initializing a registry from CSS containing the declaration
`--spacing-sm: 1rem;`, `findBestMatch` on `1rem` with no category returns
the spacing token named `sm` with confidence exactly 1. -/
theorem findBestMatch_spacing_scenario :
    findBestMatchE (initRegistry spacingScenarioCss) "1rem" none {} =
      .ok (some { token := .spacing { name := "sm", cssVariable := "--spacing-sm", value := "1rem", tailwindClass := some "p-sm", description := none }, confidence := .one, originalValue := "1rem" }) ∧
    (findBestMatchE (initRegistry spacingScenarioCss) "1rem" none {}).toOption.map
      (fun o => o.map (fun m => (m.token.category, m.token.name, m.confidence))) =
      some (some (.spacing, "sm", .one)) := by
  refine ⟨by decide, by decide⟩

/-! ## Claim C5 -/

/-- C5: on an initialized registry, whenever some registered color token's
hex equals the parsed input's hex case-insensitively, the result is that
token (the first such, via `find`) with confidence exactly 1 — regardless
of the distances of any other candidates, since the exact check runs before
the nearest-neighbor loop; and when `exact` is requested and no token's hex
matches, the result is no match. -/
theorem findClosestColorMatch_exact_hex (s : TokenRegistry) (v : String)
    (mo : TokenMatchOptions) (target : ColorParse)
    (hinit : s.initialized = true)
    (hparse : parseColor v = .ok target) :
    ((∃ t ∈ s.colorTokens, jsToLower t.value.hex = jsToLower target.hex) →
      ∃ t0, jsToLower t0.value.hex = jsToLower target.hex ∧
        findClosestColorMatchE s v mo = .ok (some { token := .color t0, confidence := .one, originalValue := v })) ∧
    (mo.exact = some true →
      (∀ t ∈ s.colorTokens, jsToLower t.value.hex ≠ jsToLower target.hex) →
      findClosestColorMatchE s v mo = .ok none) := by
  constructor
  · intro hEx
    have hfind : (s.colorTokens.find? (fun t => jsToLower t.value.hex == jsToLower target.hex)).isSome := by
      rw [List.find?_isSome]
      obtain ⟨t, ht, heq⟩ := hEx
      exact ⟨t, ht, by simp [heq]⟩
    obtain ⟨t0, ht0⟩ := Option.isSome_iff_exists.mp hfind
    refine ⟨t0, ?_, ?_⟩
    · have := List.find?_some ht0
      simpa using this
    · simp [findClosestColorMatchE, hinit, hparse, ht0]
  · intro hexact hno
    have hfind : s.colorTokens.find? (fun t => jsToLower t.value.hex == jsToLower target.hex) = none := by
      rw [List.find?_eq_none]
      intro t ht
      simp [hno t ht]
    simp [findClosestColorMatchE, hinit, hparse, hfind, hexact]

/-- The CSS of the C5 witness: two color tokens. -/
def exactHexCss : String := ":root \x7b\n  --color-blue: #0000ff;\n  --color-teal: #25C9D0;\n\x7d"

/-- The parsed RGB of the C5 witness query. -/
def exactHexRgbBlue : RGB := { r := 0, g := 0, b := 255, a := none }

/-- The parsed form of the C5 witness query `#0000FF` (the `hsl` field is
kept as the unevaluated conversion term, which is what `parseColor`
produces). -/
def exactHexTarget : ColorParse :=
  { hex := "#0000FF", rgb := exactHexRgbBlue, hsl := some (rgbToHsl exactHexRgbBlue), oklch := none }

/-- Witness for C5: the query `#0000FF` against a registry declaring
`--color-blue: #0000ff` matches case-insensitively with confidence one. -/
theorem findClosestColorMatch_exact_hex_witness :
    ∃ t0, jsToLower t0.value.hex = jsToLower exactHexTarget.hex ∧
      findClosestColorMatchE (initRegistry exactHexCss) "#0000FF" {} =
        .ok (some { token := .color t0, confidence := .one, originalValue := "#0000FF" }) :=
  (findClosestColorMatch_exact_hex (initRegistry exactHexCss) "#0000FF" {} exactHexTarget
    rfl rfl).1 (by decide)

/-! ## Claim C6 -/

theorem createTokensStep_spacing_inv (s : TokenRegistry) (e : String × String)
    (h : ∀ t ∈ s.spacingTokens, isColorValue t.value = false) :
    ∀ t ∈ (createTokensStep s e).spacingTokens, isColorValue t.value = false := by
  intro t ht
  simp only [createTokensStep] at ht
  split at ht
  · exact h t ht
  · split at ht
    · -- color branch: spacingTokens unchanged
      simp only [createColorToken] at ht
      split at ht <;> exact h t ht
    · split at ht
      · -- spacing branch: guarded by the negated color test
        next hnc hsp =>
        simp only [createSpacingToken, List.mem_append, List.mem_singleton] at ht
        rcases ht with ht | ht
        · exact h t ht
        · rw [ht]
          simpa using hnc
      · split at ht
        · simp only [createBorderRadiusToken] at ht
          exact h t ht
        · split at ht
          · simp only [createShadowToken] at ht
            exact h t ht
          · split at ht
            · simp only [createOrUpdateTypographyToken] at ht
              exact h t ht
            · exact h t ht

theorem createTokens_fold_spacing_inv (entries : List (String × String)) (s : TokenRegistry)
    (h : ∀ t ∈ s.spacingTokens, isColorValue t.value = false) :
    ∀ t ∈ (entries.foldl createTokensStep s).spacingTokens, isColorValue t.value = false := by
  induction entries generalizing s with
  | nil => exact h
  | cons e rest ih => exact ih _ (createTokensStep_spacing_inv s e h)

/-- Invariant of initialization: a spacing token is only ever created in the
branch where `isColorValue` has already rejected the value, so no spacing
token of an initialized registry has a color-shaped value. -/
theorem initRegistry_spacing_not_color (css : String) :
    ∀ t ∈ (initRegistry css).spacingTokens, isColorValue t.value = false := by
  intro t ht
  unfold initRegistry at ht
  exact createTokens_fold_spacing_inv _ _ (by intro t0 ht0; cases ht0) t ht

/-- C6: in every registry built by initialization that contains a spacing
token and a borderRadius token with the same string value `v`,
`findBestMatch v` with no category returns a spacing-category match (the
spacing branch runs before the borderRadius branch). -/
theorem findBestMatch_spacing_precedence (css : String) (v : String) (mo : TokenMatchOptions)
    (hsp : ∃ t ∈ (initRegistry css).spacingTokens, t.value = v)
    (_hbr : ∃ u ∈ (initRegistry css).borderRadiusTokens, u.value = v) :
    ∃ m, findBestMatchE (initRegistry css) v none mo = .ok (some m) ∧
      m.token.category = .spacing := by
  obtain ⟨t, ht, htv⟩ := hsp
  have hcolor : isColorValue v = false := htv ▸ initRegistry_spacing_not_color css t ht
  have hfind : ((initRegistry css).spacingTokens.find? (fun tk => tk.value == v)).isSome := by
    rw [List.find?_isSome]
    exact ⟨t, ht, by simp [htv]⟩
  obtain ⟨t0, ht0⟩ := Option.isSome_iff_exists.mp hfind
  have hinit : (initRegistry css).initialized = true := rfl
  refine ⟨{ token := .spacing t0, confidence := .one, originalValue := v }, ?_, rfl⟩
  simp [findBestMatchE, hinit, hcolor, ht0]

/-- The CSS of the C6 witness: a spacing and a borderRadius declaration with
the same value. -/
def spacingRadiusCss : String := ":root \x7b\n  --spacing-a: 7px;\n  --border-radius-b: 7px;\n\x7d"

/-- Witness for C6 at the concrete value `7px`. -/
theorem findBestMatch_spacing_precedence_witness :
    ∃ m, findBestMatchE (initRegistry spacingRadiusCss) "7px" none {} = .ok (some m) ∧
      m.token.category = .spacing :=
  findBestMatch_spacing_precedence spacingRadiusCss "7px" {} (by decide) (by decide)

/-! ## Claim C10 -/

theorem bestMatchShadow_shape {s : TokenRegistry} {v : String} {cat : Option TokenCategory}
    {m : TokenMatch} (h : bestMatchShadow s v cat = some m) : ∃ t, m.token = .shadow t := by
  simp only [bestMatchShadow] at h
  split at h
  · split at h
    next t heq =>
      cases h
      exact ⟨t, rfl⟩
    next heq => cases h
  · cases h

theorem bestMatchRadius_shape {s : TokenRegistry} {v : String} {cat : Option TokenCategory}
    {m : TokenMatch} (h : bestMatchRadius s v cat = some m) :
    (∃ t, m.token = .borderRadius t) ∨ (∃ t, m.token = .shadow t) := by
  simp only [bestMatchRadius] at h
  split at h
  · split at h
    next t heq =>
      cases h
      exact .inl ⟨t, rfl⟩
    next heq => exact .inr (bestMatchShadow_shape h)
  · exact .inr (bestMatchShadow_shape h)

theorem findClosestColorMatchE_shape {s : TokenRegistry} {v : String} {mo : TokenMatchOptions}
    {m : TokenMatch} (h : findClosestColorMatchE s v mo = .ok (some m)) :
    ∃ t, m.token = .color t := by
  simp only [findClosestColorMatchE] at h
  split at h
  · cases h
  · split at h
    · cases h
    · split at h
      next t heq =>
        cases h
        exact ⟨t, rfl⟩
      next heq =>
        split at h
        · cases h
        · split at h
          next t' q heq2 =>
            split at h
            · cases h
              exact ⟨t', rfl⟩
            · cases h
          next heq2 => cases h

/-- C10: `findBestMatch` can never return a typography-category match, for
every registry state and all arguments: the interface has no typography
branch, so a result can only carry a color, spacing, borderRadius or shadow
token. -/
theorem findBestMatch_never_typography (s : TokenRegistry) (v : String)
    (cat : Option TokenCategory) (mo : TokenMatchOptions) (m : TokenMatch)
    (h : findBestMatchE s v cat mo = .ok (some m)) :
    m.token.category ≠ .typography := by
  simp only [findBestMatchE] at h
  split at h
  · cases h
  · split at h
    next e heq => cases h
    next cm heq =>
      cases h
      have hcc : findClosestColorMatchE s v mo = .ok (some m) := by
        split at heq
        · exact heq
        · cases heq
      obtain ⟨t, htk⟩ := findClosestColorMatchE_shape hcc
      simp [htk, DesignToken.category]
    next heq =>
      split at h
      · split at h
        next t heq2 =>
          cases h
          simp [DesignToken.category]
        next heq2 =>
          injection h with h2
          rcases bestMatchRadius_shape h2 with ⟨t, htk⟩ | ⟨t, htk⟩ <;>
            simp [htk, DesignToken.category]
      · injection h with h2
        rcases bestMatchRadius_shape h2 with ⟨t, htk⟩ | ⟨t, htk⟩ <;>
          simp [htk, DesignToken.category]

/-- Witness for C10: a successful `findBestMatch` result (the C4 scenario)
whose category is not typography. -/
theorem findBestMatch_never_typography_witness :
    ({ token := .spacing { name := "sm", cssVariable := "--spacing-sm", value := "1rem", tailwindClass := some "p-sm", description := none }, confidence := .one, originalValue := "1rem" } : TokenMatch).token.category ≠ .typography :=
  findBestMatch_never_typography (initRegistry spacingScenarioCss) "1rem" none {} _ (by decide)

/-! ## Pattern matcher data model (src/matchers/types.ts) -/

/-- `MatchType` of matchers/types.ts. -/
inductive MatchType
  | color
  | spacing
  | borderRadius
  | shadow
  | typography
deriving DecidableEq, Repr

/-- The scope union of `MatchResult.scope`. -/
inductive MatchScope
  | style
  | className
  | prop
  | styledComponent
deriving DecidableEq, Repr

/-- `CSS_PROPERTY_CATEGORIES` of matchers/types.ts, in source order (no key
is duplicated). -/
def CSS_PROPERTY_CATEGORIES : List (String × MatchType) := [
  ("color", .color),
  ("backgroundColor", .color),
  ("borderColor", .color),
  ("fill", .color),
  ("stroke", .color),
  ("outlineColor", .color),
  ("background", .color),
  ("margin", .spacing),
  ("marginTop", .spacing),
  ("marginRight", .spacing),
  ("marginBottom", .spacing),
  ("marginLeft", .spacing),
  ("padding", .spacing),
  ("paddingTop", .spacing),
  ("paddingRight", .spacing),
  ("paddingBottom", .spacing),
  ("paddingLeft", .spacing),
  ("gap", .spacing),
  ("columnGap", .spacing),
  ("rowGap", .spacing),
  ("borderRadius", .borderRadius),
  ("borderTopLeftRadius", .borderRadius),
  ("borderTopRightRadius", .borderRadius),
  ("borderBottomLeftRadius", .borderRadius),
  ("borderBottomRightRadius", .borderRadius),
  ("boxShadow", .shadow),
  ("textShadow", .shadow),
  ("filter", .shadow),
  ("fontSize", .typography),
  ("fontWeight", .typography),
  ("lineHeight", .typography),
  ("letterSpacing", .typography),
  ("fontFamily", .typography)]

/-- Property lookup in `CSS_PROPERTY_CATEGORIES` (an object literal without
duplicate keys, so first and last match coincide). -/
def cssPropertyLookup (p : String) : Option MatchType :=
  (CSS_PROPERTY_CATEGORIES.find? (fun e => e.1 == p)).map (fun e => e.2)

/-- `MatchLocation` of matchers/types.ts; the source field names `start` and
`end` are reserved words here and appear as `startPos`/`endPos`. -/
structure MatchLocation where
  startPos : Nat
  endPos : Nat
  line : Nat
  column : Nat
deriving DecidableEq, Repr

/-- Embedding of `getLineAndColumn` (1-based, via splitting the prefix on
newlines). -/
def getLineAndColumn (source : String) (index : Nat) : Nat × Nat :=
  if source.data.length < index then (0, 0)
  else
    let pre := source.data.take index
    ((pre.filter (fun c => c = '\n')).length + 1,
      (pre.reverse.takeWhile (fun c => c ≠ '\n')).length + 1)

/-- Embedding of `createMatchLocation`. -/
def createMatchLocation (source : String) (startP endP : Nat) : MatchLocation :=
  let lc := getLineAndColumn source startP
  { startPos := startP, endPos := endP, line := lc.1, column := lc.2 }

/-- Embedding of `getFullLine`: the whole line containing the position. -/
def getFullLine (source : String) (index : Nat) : String :=
  let pre := source.data.take index
  let startL := index - (pre.reverse.takeWhile (fun c => c ≠ '\n')).length
  ⟨(source.data.drop startL).takeWhile (fun c => c ≠ '\n')⟩

/-- `MatchResult` of matchers/types.ts.  `context.line` appears as
`contextLine`; the best-effort `context.element` tag-name extraction and
the free-form `metadata` field are not modelled — no claim refers to them
and they affect neither which records are produced nor their order. -/
structure MatchResult where
  type : MatchType
  value : String
  property : String
  scope : MatchScope
  contextLine : String
  location : MatchLocation
  path : List String
deriving DecidableEq, Repr

/-- `MatcherOptions` of matchers/types.ts.  The `customPatterns` field is
omitted: neither matcher reads it. -/
structure MatcherOptions where
  types : Option (List MatchType) := none
  includeContext : Option Bool := none
  scopeLimit : Option (List MatchScope) := none
deriving DecidableEq, Repr

/-- The default of the destructured `types` option in both matchers. -/
def defaultMatchTypes : List MatchType := [.color, .spacing, .borderRadius, .shadow, .typography]

/-! ## Generic regex-exec scanning -/

/-- One emitted match of a global regex scan.  `pos` is the match start;
the match splits into `pre` characters before the captured value, `vlen`
value characters, and `post` characters after it. -/
structure ScanHit (α : Type) where
  payload : α
  pos : Nat
  pre : Nat
  vlen : Nat
  post : Nat
deriving DecidableEq, Repr

/-- Total length of a scan hit. -/
def ScanHit.len {α : Type} (h : ScanHit α) : Nat := h.pre + h.vlen + h.post

/-- Generic `regex.exec` loop: at each position try the matcher; on a match
emit a hit and continue after it, otherwise advance one character.  `prev`
is the character before the current position (for word-boundary tests).
Fuel is the input length: every step consumes at least one character.  A
zero-length match cannot arise for the matchers below and is treated as no
match. -/
def scanFrom {α : Type} (f : Option Char → List Char → Option (α × Nat × Nat × Nat)) :
    Nat → Option Char → List Char → Nat → List (ScanHit α)
  | 0, _, _, _ => []
  | _ + 1, _, [], _ => []
  | fuel + 1, prev, c :: rest, pos =>
    match f prev (c :: rest) with
    | some (a, pre, vlen, post) =>
      let len := pre + vlen + post
      if len = 0 then scanFrom f fuel (some c) rest (pos + 1)
      else
        { payload := a, pos := pos, pre := pre, vlen := vlen, post := post } ::
          scanFrom f fuel ((c :: rest).get? (len - 1)) ((c :: rest).drop len) (pos + len)
    | none => scanFrom f fuel (some c) rest (pos + 1)

/-! ## TailwindClassMatcher (src/matchers/TailwindClassMatcher.ts) -/

/-- The `TAILWIND_PREFIX_MAP` object literal as its ordered list of property
assignments.  The key `text-` is assigned twice in the source — first as a
color mapping, later as a typography mapping — and a JavaScript object
literal keeps the value of the last assignment for a duplicated key, so
lookup takes the last matching entry. -/
def TAILWIND_PREFIX_MAP : List (String × String × MatchType) := [
  ("bg-", "backgroundColor", .color),
  ("text-", "color", .color),
  ("border-", "borderColor", .color),
  ("border-t-", "borderTopColor", .color),
  ("border-b-", "borderBottomColor", .color),
  ("border-l-", "borderLeftColor", .color),
  ("border-r-", "borderRightColor", .color),
  ("outline-", "outlineColor", .color),
  ("fill-", "fill", .color),
  ("stroke-", "stroke", .color),
  ("from-", "gradientColorFrom", .color),
  ("to-", "gradientColorTo", .color),
  ("via-", "gradientColorVia", .color),
  ("rounded-", "borderRadius", .borderRadius),
  ("rounded-t-", "borderTopRadius", .borderRadius),
  ("rounded-b-", "borderBottomRadius", .borderRadius),
  ("rounded-l-", "borderLeftRadius", .borderRadius),
  ("rounded-r-", "borderRightRadius", .borderRadius),
  ("rounded-tl-", "borderTopLeftRadius", .borderRadius),
  ("rounded-tr-", "borderTopRightRadius", .borderRadius),
  ("rounded-bl-", "borderBottomLeftRadius", .borderRadius),
  ("rounded-br-", "borderBottomRightRadius", .borderRadius),
  ("shadow-", "boxShadow", .shadow),
  ("m-", "margin", .spacing),
  ("mt-", "marginTop", .spacing),
  ("mr-", "marginRight", .spacing),
  ("mb-", "marginBottom", .spacing),
  ("ml-", "marginLeft", .spacing),
  ("mx-", "marginHorizontal", .spacing),
  ("my-", "marginVertical", .spacing),
  ("p-", "padding", .spacing),
  ("pt-", "paddingTop", .spacing),
  ("pr-", "paddingRight", .spacing),
  ("pb-", "paddingBottom", .spacing),
  ("pl-", "paddingLeft", .spacing),
  ("px-", "paddingHorizontal", .spacing),
  ("py-", "paddingVertical", .spacing),
  ("gap-", "gap", .spacing),
  ("gap-x-", "columnGap", .spacing),
  ("gap-y-", "rowGap", .spacing),
  ("space-x-", "spaceX", .spacing),
  ("space-y-", "spaceY", .spacing),
  ("text-", "fontSize", .typography),
  ("font-", "fontWeight", .typography),
  ("leading-", "lineHeight", .typography),
  ("tracking-", "letterSpacing", .typography)]

/-- Lookup in the prefix map with JavaScript object semantics: the value of
the last assignment to a duplicated key wins. -/
def tailwindLookup (pfx : String) : Option (String × MatchType) :=
  ((TAILWIND_PREFIX_MAP.filter (fun e => e.1 == pfx)).getLast?).map (fun e => e.2)

/-- Quote characters of the className regex alternation. -/
def isQuoteChar (c : Char) : Bool := c = '"' || c = '\x27' || c = '\x60'

/-- The lazy search inside the brace-wrapped className form: the smallest
prefix (newline-free, the regex has no dotall flag) ending at a quote
character that is immediately followed by a closing brace. -/
def findQuoteBrace : List Char → Nat → Option Nat
  | [], _ => none
  | c :: rest, n =>
    if isQuoteChar c && rest.head? == some '\x7d' then some n
    else if c = '\n' then none
    else findQuoteBrace rest (n + 1)

/-- Matcher for the `className` prop regex
`className\s*=\s*(?:{(?:QUOTE)(.*?)(?:QUOTE)}|"(.*?)"|QUOTE(.*?)QUOTE)` at
the current position (QUOTE standing for the three-quote alternation; the
lazy groups do not cross newlines).  The payload is the captured group; the
reported lengths reconstruct the whole match. -/
def fClassName (_prev : Option Char) (l : List Char) : Option (List Char × Nat × Nat × Nat) :=
  match eatLit "className".data l with
  | none => none
  | some l1 =>
    let ws1 := l1.takeWhile isJsWs
    match l1.drop ws1.length with
    | '=' :: l2 =>
      let ws2 := l2.takeWhile isJsWs
      let l3 := l2.drop ws2.length
      let pre0 := 9 + ws1.length + 1 + ws2.length
      match l3 with
      | '\x7b' :: l4 =>
        match l4 with
        | q :: l5 =>
          if isQuoteChar q then
            match findQuoteBrace l5 0 with
            | some n => some (l5.take n, pre0 + 2, n, 2)
            | none => none
          else none
        | [] => none
      | '"' :: l4 =>
        let content := l4.takeWhile (fun ch => ch ≠ '"' && ch ≠ '\n')
        match l4.drop content.length with
        | '"' :: _ => some (content, pre0 + 1, content.length, 1)
        | _ => none
      | '\x27' :: l4 =>
        let content := l4.takeWhile (fun ch => ch ≠ '\x27' && ch ≠ '\n')
        match l4.drop content.length with
        | '\x27' :: _ => some (content, pre0 + 1, content.length, 1)
        | _ => none
      | _ => none
    | _ => none

/-- Matcher for one string literal of the fallback scan
(double-quote, single-quote or backtick; the lazy group is dotall, crossing
newlines). -/
def fStringLit (_prev : Option Char) (l : List Char) : Option (List Char × Nat × Nat × Nat) :=
  match l with
  | [] => none
  | c :: rest =>
    if isQuoteChar c then
      let content := rest.takeWhile (fun ch => ch ≠ c)
      if content.length < rest.length then some (content, 1, content.length, 1) else none
    else none

/-- The word-character class of the regex `\b` boundary. -/
def isWordChar (c : Char) : Bool :=
  ('a' ≤ c && c ≤ 'z') || ('A' ≤ c && c ≤ 'Z') || isDigitC c || c = '_'

/-- Matcher for one arbitrary-value class, regex
`\b([a-z]+-[a-z]*-?)\[(.*?)\]`.  Since `[a-z]+` needs a word character at
the match start, the boundary holds exactly when the previous character is
absent or not a word character.  The optional trailing hyphen is greedy but
backtracks when no bracket follows it.  The payload is the pair (prefix,
bracketed value). -/
def fArb (prev : Option Char) (l : List Char) : Option ((List Char × List Char) × Nat × Nat × Nat) :=
  let boundary := match prev with | none => true | some p => !isWordChar p
  if !boundary then none
  else
    let a := l.takeWhile (fun c => 'a' ≤ c && c ≤ 'z')
    if a.isEmpty then none
    else
      match l.drop a.length with
      | '-' :: l2 =>
        let b := l2.takeWhile (fun c => 'a' ≤ c && c ≤ 'z')
        let l3 := l2.drop b.length
        let cont (pfx : List Char) (r : List Char) :
            Option ((List Char × List Char) × Nat × Nat × Nat) :=
          let v := r.takeWhile (fun c => c ≠ ']' && c ≠ '\n')
          match r.drop v.length with
          | ']' :: _ => some ((pfx, v), pfx.length + 1, v.length, 1)
          | _ => none
        match l3 with
        | '-' :: '[' :: r => cont (a ++ '-' :: b ++ ['-']) r
        | '[' :: r => cont (a ++ '-' :: b) r
        | _ => none
      | _ => none

/-- The record built from one arbitrary-value hit inside one candidate
string, mirroring the body of the inner loop of `TailwindClassMatcher.match`
(prefix lookup, requested-type filter, offset computation `candidate start +
match index + prefix length + 1`). -/
def tailwindRecordOf (source : String) (types : List MatchType)
    (cand : ScanHit (List Char)) (hit : ScanHit (List Char × List Char)) : Option MatchResult :=
  let pfx : String := ⟨hit.payload.1⟩
  let v : String := ⟨hit.payload.2⟩
  match tailwindLookup pfx with
  | none => none
  | some pt =>
    if !types.contains pt.2 then none
    else
      let valueStart := cand.pos + hit.pos + pfx.data.length + 1
      let valueEnd := valueStart + v.data.length
      some { type := pt.2, value := v, property := pt.1, scope := .className
             contextLine := getFullLine source valueStart
             location := createMatchLocation source valueStart valueEnd
             path := ["className", pfx ++ "[" ++ v ++ "]"] }

/-- The records of one candidate string: scan it for arbitrary-value
classes and build the records. -/
def tailwindRecords (source : String) (types : List MatchType)
    (cand : ScanHit (List Char)) : List MatchResult :=
  (scanFrom fArb cand.payload.length none cand.payload 0).filterMap
    (tailwindRecordOf source types cand)

/-- Embedding of `TailwindClassMatcher.match`: collect the `className`
candidates (falling back to every string literal when none exist), then
emit the mapped arbitrary-value classes of each candidate in order. -/
def tailwindMatch (source : String) (options : MatcherOptions) : List MatchResult :=
  let types := options.types.getD defaultMatchTypes
  let cands0 := scanFrom fClassName source.data.length none source.data 0
  let cands :=
    if cands0.isEmpty then scanFrom fStringLit source.data.length none source.data 0
    else cands0
  cands.flatMap (tailwindRecords source types)

/-! ## Claim C1 -/

/-- The scenario source of C1. -/
def c1ScenarioSrc : String := "<div className=\"bg-[#25C9D0] text-[rgb(85,85,85)]\">"

/-- C1 (code bug): on the scenario source the matcher does emit exactly two
utility-class records with the expected values, and the first is the
expected backgroundColor color record — but the second record carries type
typography and property fontSize, because the object literal
`TAILWIND_PREFIX_MAP` assigns the key `text-` twice and the later
typography assignment overwrites the color one.  The specification and the
repository's own test (tests/matchers/TailwindClassMatcher.test.ts,
expecting type color and property color for `text-[rgb(85,85,85)]`)
describe the intended behavior; the duplicated key is the slip. -/
theorem tailwindMatch_c1_actual :
    (tailwindMatch c1ScenarioSrc {}).map (fun r => (r.type, r.value, r.property, r.scope)) =
      [(.color, "#25C9D0", "backgroundColor", .className),
        (.typography, "rgb(85,85,85)", "fontSize", .className)] ∧
    tailwindLookup "text-" = some ("fontSize", .typography) := by
  refine ⟨by decide, by decide⟩

/-! ## Claim C8: generic scan lemmas -/

theorem scanFrom_prop {α : Type} (f : Option Char → List Char → Option (α × Nat × Nat × Nat))
    (Q : α → Nat → Nat → Nat → Prop)
    (Hf : ∀ prev cs a pre vlen post, f prev cs = some (a, pre, vlen, post) → Q a pre vlen post) :
    ∀ fuel prev cs pos, ∀ hit ∈ scanFrom f fuel prev cs pos,
      Q hit.payload hit.pre hit.vlen hit.post := by
  intro fuel
  induction fuel with
  | zero =>
    intro prev cs pos hit h
    simp [scanFrom] at h
  | succ n ih =>
    intro prev cs pos hit h
    match cs with
    | [] => simp [scanFrom] at h
    | c :: rest =>
      simp only [scanFrom] at h
      revert h
      split
      next a pre vlen post heq =>
        split
        · intro h
          exact ih _ _ _ _ h
        · intro h
          rcases List.mem_cons.mp h with h | h
          · rw [h]
            exact Hf _ _ _ _ _ _ heq
          · exact ih _ _ _ _ h
      next heq =>
        intro h
        exact ih _ _ _ _ h

theorem scanFrom_bounds {α : Type} (f : Option Char → List Char → Option (α × Nat × Nat × Nat))
    (Hf : ∀ prev cs a pre vlen post, f prev cs = some (a, pre, vlen, post) →
      pre + vlen + post ≤ cs.length) :
    ∀ fuel prev cs pos,
      (∀ hit ∈ scanFrom f fuel prev cs pos,
        pos ≤ hit.pos ∧ hit.pos + hit.len ≤ pos + cs.length) ∧
      List.Pairwise (fun a b => a.pos + ScanHit.len a ≤ b.pos) (scanFrom f fuel prev cs pos) := by
  intro fuel
  induction fuel with
  | zero =>
    intro prev cs pos
    constructor
    · intro hit h
      simp [scanFrom] at h
    · simp [scanFrom]
  | succ n ih =>
    intro prev cs pos
    match cs with
    | [] =>
      constructor
      · intro hit h
        simp [scanFrom] at h
      · simp [scanFrom]
    | c :: rest =>
      simp only [scanFrom]
      split
      next a pre vlen post heq =>
        have hlen := Hf _ _ _ _ _ _ heq
        split
        next hzero => 
          obtain ⟨ihb, ihp⟩ := ih (some c) rest (pos + 1)
          constructor
          · intro hit h
            obtain ⟨h1, h2⟩ := ihb hit h
            simp at h2 ⊢
            omega
          · exact ihp
        next hzero =>
          obtain ⟨ihb, ihp⟩ := ih ((c :: rest).get? (pre + vlen + post - 1))
            ((c :: rest).drop (pre + vlen + post)) (pos + (pre + vlen + post))
          have hdl : ((c :: rest).drop (pre + vlen + post)).length =
              (c :: rest).length - (pre + vlen + post) := List.length_drop _ _
          constructor
          · intro hit h
            rcases List.mem_cons.mp h with h | h
            · rw [h]
              refine ⟨Nat.le_refl _, ?_⟩
              simp [ScanHit.len]
              simp at hlen
              omega
            · obtain ⟨h1, h2⟩ := ihb hit h
              simp at hlen h1 h2 ⊢
              omega
          · rw [List.pairwise_cons]
            constructor
            · intro hit h
              obtain ⟨h1, h2⟩ := ihb hit h
              simp [ScanHit.len]
              omega
            · exact ihp
      next heq =>
        obtain ⟨ihb, ihp⟩ := ih (some c) rest (pos + 1)
        constructor
        · intro hit h
          obtain ⟨h1, h2⟩ := ihb hit h
          simp at h2 ⊢
          omega
        · exact ihp

theorem takeWhile_len_le (p : Char → Bool) : ∀ l : List Char, (l.takeWhile p).length ≤ l.length
  | [] => by simp
  | c :: rest => by
    simp only [List.takeWhile]
    split
    · simpa using Nat.succ_le_succ (takeWhile_len_le p rest)
    · simp

theorem eatLit_some {pat l l' : List Char} (h : eatLit pat l = some l') :
    l' = l.drop pat.length ∧ pat.length + l'.length = l.length := by
  unfold eatLit at h
  split at h
  next hp =>
    cases h
    have hle : pat.length ≤ l.length := (List.isPrefixOf_iff_prefix.mp hp).length_le
    refine ⟨rfl, ?_⟩
    rw [List.length_drop]
    omega
  next => cases h

theorem findQuoteBrace_bound : ∀ (l : List Char) (k n : Nat), findQuoteBrace l k = some n →
    k ≤ n ∧ n - k + 2 ≤ l.length
  | [], k, n => by intro h; simp [findQuoteBrace] at h
  | c :: rest, k, n => by
    intro h
    simp only [findQuoteBrace] at h
    split at h
    next hq =>
      cases h
      simp at hq
      rcases hq with ⟨-, hq⟩
      cases rest with
      | nil => simp [List.head?] at hq
      | cons d r2 =>
        simp only [List.length_cons]
        omega
    next =>
      split at h
      · cases h
      · have := findQuoteBrace_bound rest (k + 1) n h
        simp only [List.length_cons]
        omega

theorem drop_cons_length {l r : List Char} {c : Char} {k : Nat} (h : l.drop k = c :: r) :
    k + 1 + r.length ≤ l.length := by
  have hd : (l.drop k).length = l.length - k := List.length_drop _ _
  rw [h] at hd
  simp only [List.length_cons] at hd
  omega


theorem fStringLit_bound (prev : Option Char) (cs : List Char) (a : List Char)
    (pre vlen post : Nat) (h : fStringLit prev cs = some (a, pre, vlen, post)) :
    pre + vlen + post ≤ cs.length ∧ a.length = vlen := by
  match cs with
  | [] => simp [fStringLit] at h
  | c :: rest =>
    simp only [fStringLit] at h
    split at h
    · split at h
      next hlt =>
        cases h
        refine ⟨?_, rfl⟩
        simp only [List.length_cons]
        omega
      next => cases h
    · cases h

theorem fArb_bound (prev : Option Char) (cs : List Char) (a : List Char × List Char)
    (pre vlen post : Nat) (h : fArb prev cs = some (a, pre, vlen, post)) :
    pre + vlen + post ≤ cs.length ∧ pre = a.1.length + 1 ∧ vlen = a.2.length := by
  simp only [fArb] at h
  split at h
  · cases h
  · split at h
    · cases h
    · split at h
      next l2 heq2 =>
        have hl2 := drop_cons_length heq2
        split at h
        next r heq3 =>
          have h3 := drop_cons_length heq3
          simp only [List.length_cons] at h3
          split at h
          next heq4 =>
            have hv := drop_cons_length heq4
            cases h
            refine ⟨?_, ?_, rfl⟩
            · simp only [List.length_append, List.length_cons, List.length_nil]
              omega
            · simp only [List.length_append, List.length_cons, List.length_nil]
          next => cases h
        next r heq3 =>
          have h3 := drop_cons_length heq3
          split at h
          next heq4 =>
            have hv := drop_cons_length heq4
            cases h
            refine ⟨?_, ?_, rfl⟩
            · simp only [List.length_append, List.length_cons, List.length_nil]
              omega
            · simp only [List.length_append, List.length_cons, List.length_nil]
          next => cases h
        next => cases h
      next => cases h

theorem fClassName_bound (prev : Option Char) (cs : List Char) (a : List Char)
    (pre vlen post : Nat) (h : fClassName prev cs = some (a, pre, vlen, post)) :
    pre + vlen + post ≤ cs.length ∧ a.length = vlen := by
  simp only [fClassName] at h
  split at h
  next => cases h
  next l1 heq1 =>
    obtain ⟨-, hlen1⟩ := eatLit_some heq1
    have h9 : ("className".data).length = 9 := by decide
    rw [h9] at hlen1
    split at h
    next l2 heq2 =>
      have hl2 := drop_cons_length heq2
      split at h
      next l4 heq3 =>
        have hl4 := drop_cons_length heq3
        split at h
        next q l5 =>
          split at h
          · split at h
            next n heqF =>
              obtain ⟨-, hF⟩ := findQuoteBrace_bound _ _ _ heqF
              cases h
              refine ⟨?_, ?_⟩
              · simp only [List.length_cons] at hl4
                omega
              · simp only [List.length_take]
                omega
            next => cases h
          · cases h
        next => cases h
      next l4 heq3 =>
        have hl4 := drop_cons_length heq3
        split at h
        next tl heq4 =>
          have hc := drop_cons_length heq4
          cases h
          refine ⟨?_, rfl⟩
          omega
        next => cases h
      next l4 heq3 =>
        have hl4 := drop_cons_length heq3
        split at h
        next tl heq4 =>
          have hc := drop_cons_length heq4
          cases h
          refine ⟨?_, rfl⟩
          omega
        next => cases h
      next => cases h
    next => cases h

theorem pairwise_filterMap_of_mem {α β : Type} {R : β → β → Prop} {g : α → Option β}
    {S : α → α → Prop} :
    ∀ {l : List α}, l.Pairwise S →
    (∀ a ∈ l, ∀ b ∈ l, S a b → ∀ x, g a = some x → ∀ y, g b = some y → R x y) →
    (l.filterMap g).Pairwise R := by
  intro l
  induction l with
  | nil =>
    intro _ _
    simp
  | cons a rest ih =>
    intro hl hcross
    obtain ⟨ha, htail⟩ := List.pairwise_cons.mp hl
    rw [List.filterMap_cons]
    have htailP : (rest.filterMap g).Pairwise R :=
      ih htail (fun x hx y hy s => hcross x (by simp [hx]) y (by simp [hy]) s)
    split
    · exact htailP
    next x hx =>
      rw [List.pairwise_cons]
      refine ⟨?_, htailP⟩
      intro y hy
      obtain ⟨b, hb, hgb⟩ := List.mem_filterMap.mp hy
      exact hcross a (by simp) b (by simp [hb]) (ha b hb) x hx y hgb

theorem pairwise_flatMap_of_mem {α β : Type} {R : β → β → Prop} {f : α → List β}
    {S : α → α → Prop} :
    ∀ {l : List α}, l.Pairwise S →
    (∀ a ∈ l, (f a).Pairwise R) →
    (∀ a ∈ l, ∀ b ∈ l, S a b → ∀ x ∈ f a, ∀ y ∈ f b, R x y) →
    (l.flatMap f).Pairwise R := by
  intro l
  induction l with
  | nil =>
    intro _ _ _
    simp
  | cons a rest ih =>
    intro hl hin hcross
    obtain ⟨ha, htail⟩ := List.pairwise_cons.mp hl
    rw [List.flatMap_cons]
    apply List.pairwise_append.mpr
    refine ⟨hin a (by simp), ?_, ?_⟩
    · exact ih htail (fun b hb => hin b (by simp [hb]))
        (fun x hx y hy s => hcross x (by simp [hx]) y (by simp [hy]) s)
    · intro x hx y hy
      obtain ⟨b, hb, hyb⟩ := List.mem_flatMap.mp hy
      exact hcross a (by simp) b (by simp [hb]) (ha b hb) x hx y hyb

theorem tailwindRecordOf_start {source : String} {types : List MatchType}
    {cand : ScanHit (List Char)} {hit : ScanHit (List Char × List Char)} {x : MatchResult}
    (h : tailwindRecordOf source types cand hit = some x) :
    x.location.startPos = cand.pos + hit.pos + hit.payload.1.length + 1 := by
  simp only [tailwindRecordOf] at h
  split at h
  · cases h
  · split at h
    · cases h
    · cases h
      simp [createMatchLocation, data_mk]

theorem tailwindRecords_facts (source : String) (types : List MatchType)
    (cand : ScanHit (List Char)) (hcv : cand.payload.length = cand.vlen) :
    (tailwindRecords source types cand).Pairwise
      (fun a b => a.location.startPos ≤ b.location.startPos) ∧
    ∀ x ∈ tailwindRecords source types cand,
      cand.pos ≤ x.location.startPos ∧ x.location.startPos ≤ cand.pos + cand.vlen := by
  have hbounds := scanFrom_bounds fArb
    (fun prev cs a pre vlen post h => (fArb_bound prev cs a pre vlen post h).1)
    cand.payload.length none cand.payload 0
  have hpre := scanFrom_prop fArb (fun a pre vlen post => pre = a.1.length + 1)
    (fun prev cs a pre vlen post h => (fArb_bound prev cs a pre vlen post h).2.1)
    cand.payload.length none cand.payload 0
  constructor
  · apply pairwise_filterMap_of_mem hbounds.2
    intro h1 hm1 h2 hm2 hS x hx y hy
    rw [tailwindRecordOf_start hx, tailwindRecordOf_start hy]
    have p1 := hpre h1 hm1
    have p2 := hpre h2 hm2
    have l1 : h1.pre ≤ ScanHit.len h1 := by
      simp only [ScanHit.len]
      omega
    simp only [ScanHit.len] at hS l1
    omega
  · intro x hx
    obtain ⟨hit, hmem, hg⟩ := List.mem_filterMap.mp hx
    rw [tailwindRecordOf_start hg]
    have p := hpre hit hmem
    have b := hbounds.1 hit hmem
    simp only [ScanHit.len] at b
    omega

theorem tailwindMatch_ordered_core (source : String) (types : List MatchType)
    (cands : List (ScanHit (List Char)))
    (hvlen : ∀ c ∈ cands, c.payload.length = c.vlen)
    (hpw : cands.Pairwise (fun a b => a.pos + ScanHit.len a ≤ b.pos)) :
    (cands.flatMap (tailwindRecords source types)).Pairwise
      (fun a b => a.location.startPos ≤ b.location.startPos) := by
  apply pairwise_flatMap_of_mem hpw
  · intro cand hc
    exact (tailwindRecords_facts source types cand (hvlen cand hc)).1
  · intro cand1 h1 cand2 h2 hS x hx y hy
    have b1 := ((tailwindRecords_facts source types cand1 (hvlen cand1 h1)).2 x hx).2
    have b2 := ((tailwindRecords_facts source types cand2 (hvlen cand2 h2)).2 y hy).1
    simp only [ScanHit.len] at hS
    omega

/-- C8 amended, TailwindClassMatcher part: for every source text and every
options value, the emitted records are ordered by their `location.start`
offsets — candidates are scanned left to right and, within one candidate,
arbitrary-value classes are scanned left to right, with every reported
offset confined to its candidate's extent. -/
theorem tailwindMatch_ordered (source : String) (options : MatcherOptions) :
    (tailwindMatch source options).Pairwise
      (fun a b => a.location.startPos ≤ b.location.startPos) := by
  simp only [tailwindMatch]
  split
  · apply tailwindMatch_ordered_core
    · intro c hc
      exact scanFrom_prop fStringLit (fun a pre vlen post => a.length = vlen)
        (fun prev cs a pre vlen post h => (fStringLit_bound prev cs a pre vlen post h).2)
        source.data.length none source.data 0 c hc
    · exact (scanFrom_bounds fStringLit
        (fun prev cs a pre vlen post h => (fStringLit_bound prev cs a pre vlen post h).1)
        source.data.length none source.data 0).2
  · apply tailwindMatch_ordered_core
    · intro c hc
      exact scanFrom_prop fClassName (fun a pre vlen post => a.length = vlen)
        (fun prev cs a pre vlen post h => (fClassName_bound prev cs a pre vlen post h).2)
        source.data.length none source.data 0 c hc
    · exact (scanFrom_bounds fClassName
        (fun prev cs a pre vlen post h => (fClassName_bound prev cs a pre vlen post h).1)
        source.data.length none source.data 0).2

/-! ## InlineStyleMatcher (src/matchers/InlineStyleMatcher.ts) -/

/-- Does some suffix of the list satisfy the prefix predicate?  (Unanchored
`RegExp.prototype.test`.) -/
def anySuffix (p : List Char → Bool) : List Char → Bool
  | [] => p []
  | c :: rest => p (c :: rest) || anySuffix p rest

/-- Prefix test for `#[0-9a-fA-F]{3,8}` (unanchored use: three hex digits
after the hash suffice). -/
def pHexRun : List Char → Bool
  | '#' :: rest => 3 ≤ (rest.takeWhile isHexDigitC).length
  | _ => false

/-- Prefix test for `NAME\s*\([^)]+\)` (function-call shaped color). -/
def pCallTail (l : List Char) : Bool :=
  let l1 := eatWs l
  match l1 with
  | '(' :: r =>
    let inner := r.takeWhile (fun c => c ≠ ')')
    !inner.isEmpty && inner.length < r.length
  | _ => false

/-- Prefix test of the color pattern of `PROPERTY_TYPE_PATTERNS`:
`#hex | rgba?\s*\(…\) | hsla?\s*\(…\) | oklch\s*\(…\)`. -/
def pColorAt (l : List Char) : Bool :=
  pHexRun l ||
  (match eatLit "rgb".data l with
   | some r => (match r with | 'a' :: r2 => pCallTail r2 || pCallTail r | _ => pCallTail r)
   | none => false) ||
  (match eatLit "hsl".data l with
   | some r => (match r with | 'a' :: r2 => pCallTail r2 || pCallTail r | _ => pCallTail r)
   | none => false) ||
  (match eatLit "oklch".data l with
   | some r => pCallTail r
   | none => false)

/-- Prefix test for `\d*\.?\d+` followed by one of the given units; the
greedy digit runs and the optional dot backtrack exactly as analyzed: a dot
without following digits is left unconsumed. -/
def pNumUnit (units : List String) (l : List Char) : Bool :=
  let d1 := l.takeWhile isDigitC
  let l1 := l.drop d1.length
  let afterNum : Option (List Char) :=
    match l1 with
    | '.' :: r =>
      let d2 := r.takeWhile isDigitC
      if d2.isEmpty then (if d1.isEmpty then none else some l1)
      else some (r.drop d2.length)
    | _ => if d1.isEmpty then none else some l1
  match afterNum with
  | none => false
  | some rest => units.any (fun u => u.data.isPrefixOf rest)

/-- Prefix test for the spacing pattern `-?\d*\.?\d+(px|rem|em|%|vh|vw)`. -/
def pSpacingAt (l : List Char) : Bool :=
  match l with
  | '-' :: r => pNumUnit ["px", "rem", "em", "%", "vh", "vw"] r ||
      pNumUnit ["px", "rem", "em", "%", "vh", "vw"] l
  | _ => pNumUnit ["px", "rem", "em", "%", "vh", "vw"] l

/-- Prefix test for the mandatory part of the shadow pattern
`\d+px\s+\d+px…`; the two optional trailing groups cannot affect whether
`test` succeeds and are omitted. -/
def pShadowAt (l : List Char) : Bool :=
  (do
    let l ← eatDigits1 l
    let l ← eatLit "px".data l
    let l ← eatWs1 l
    let l ← eatDigits1 l
    let _ ← eatLit "px".data l
    pure true).getD false

/-- Prefix test for the typography pattern alternatives. -/
def pTypoAt (l : List Char) : Bool :=
  pNumUnit ["px", "rem", "em", "%"] l ||
  ["normal", "bold", "lighter", "bolder", "inherit", "initial"].any
    (fun w => w.data.isPrefixOf l) ||
  3 ≤ (l.takeWhile isDigitC).length

/-- Embedding of `isValueMatchingType` via `PROPERTY_TYPE_PATTERNS` (all
patterns are unanchored `test` searches). -/
def isValueMatchingType (value : String) (ty : MatchType) : Bool :=
  match ty with
  | .color => anySuffix pColorAt value.data
  | .spacing => anySuffix pSpacingAt value.data
  | .borderRadius => anySuffix (pNumUnit ["px", "rem", "em", "%"]) value.data
  | .shadow => anySuffix pShadowAt value.data
  | .typography => anySuffix pTypoAt value.data

/-- First index at which the pattern occurs. -/
def idxOfAux (pat : List Char) : List Char → Nat → Option Nat
  | [], i => if pat.isEmpty then some i else none
  | c :: rest, i => if pat.isPrefixOf (c :: rest) then some i else idxOfAux pat rest (i + 1)

/-- `String.prototype.indexOf` (from position 0). -/
def idxOf (hay pat : List Char) : Option Nat := idxOfAux pat hay 0

/-- `String.prototype.indexOf` with a from-index. -/
def idxOfFrom (hay pat : List Char) (from0 : Nat) : Option Nat :=
  (idxOfAux pat (hay.drop from0) 0).map (fun n => n + from0)

/-- The character class `[A-Za-z0-9_]` of the property-name capture. -/
def isPropNameChar (c : Char) : Bool :=
  ('a' ≤ c && c ≤ 'z') || ('A' ≤ c && c ≤ 'Z') || isDigitC c || c = '_'

/-- The lazy value part of the property regex
`(['"`]?(.*?)['"`]?)(,|$)` starting after the optional leading quote: the
smallest newline-free content such that either a quote directly followed by
a comma or the end, or a bare comma, or the end itself, closes the match.
Returns (content length, extra characters consumed after the content). -/
def lazyValGo : List Char → Nat → Option (Nat × Nat)
  | [], k => some (k, 0)
  | c :: rest, k =>
    if isQuoteChar c then
      match rest with
      | [] => some (k, 1)
      | ',' :: _ => some (k, 2)
      | _ => lazyValGo rest (k + 1)
    else if c = ',' then some (k, 1)
    else if c = '\n' then none
    else lazyValGo rest (k + 1)

/-- Matcher for one `property: value` pair of the pair-splitting regex
`([A-Za-z0-9_]+)\s*:\s*(['"`]?(.*?)['"`]?)(,|$)`; the payload is the pair
(property name, raw third capture). -/
def fProp (_prev : Option Char) (l : List Char) : Option ((List Char × List Char) × Nat × Nat × Nat) :=
  let ident := l.takeWhile isPropNameChar
  if ident.isEmpty then none
  else
    let l1 := l.drop ident.length
    let ws1 := l1.takeWhile isJsWs
    match l1.drop ws1.length with
    | ':' :: l2 =>
      let ws2 := l2.takeWhile isJsWs
      let l3 := l2.drop ws2.length
      let pre0 := ident.length + ws1.length + 1 + ws2.length
      match l3 with
      | q :: l4 =>
        if isQuoteChar q then
          match lazyValGo l4 0 with
          | some (k, e) => some ((ident, l4.take k), pre0 + 1, k, e)
          | none =>
            match lazyValGo l3 0 with
            | some (k, e) => some ((ident, l3.take k), pre0, k, e)
            | none => none
        else
          match lazyValGo l3 0 with
          | some (k, e) => some ((ident, l3.take k), pre0, k, e)
          | none => none
      | [] =>
        match lazyValGo l3 0 with
        | some (k, e) => some ((ident, l3.take k), pre0, k, e)
        | none => none
    | _ => none

/-- Embedding of `processStyleObject`: trim and strip the outer braces,
scan the `property: value` pairs, keep the recognized and shape-valid ones,
and compute the offsets the way the source does — `propIndex = baseIndex +
styleObjStr.indexOf(property)` and `valueIndex = propIndex +
property.length + styleObjStr.substring(indexOf(property), indexOf(value,
indexOf(property))).length`.  Both `indexOf` searches always succeed here
(the property name and the trimmed value are substrings of `styleObjStr` at
or after the searched-from position), so the JavaScript `-1` miss case
cannot arise and index arithmetic stays in ℕ. -/
def processStyleObject (source : String) (types : List MatchType)
    (styleObjStr : List Char) (baseIndex : Nat) (pathPfx : List String) : List MatchResult :=
  let t := jsTrim ⟨styleObjStr⟩
  let objContent : String :=
    if jsStartsWith t "\x7b" && jsEndsWith t "\x7d" then
      jsTrim ⟨(t.data.drop 1).take (t.data.length - 2)⟩
    else t
  (scanFrom fProp objContent.data.length none objContent.data 0).filterMap (fun hit =>
    let property : String := ⟨hit.payload.1⟩
    let value := jsTrim ⟨hit.payload.2⟩
    if value = "" then none
    else
      match cssPropertyLookup property with
      | none => none
      | some ty =>
        if !types.contains ty then none
        else if !isValueMatchingType value ty then none
        else
          let a := (idxOf styleObjStr property.data).getD 0
          let b := (idxOfFrom styleObjStr value.data a).getD 0
          let subLen := if a ≤ b then b - a else a - b
          let valueIndex := baseIndex + a + property.data.length + subLen
          some { type := ty, value := value, property := property, scope := .style
                 contextLine := getFullLine source valueIndex
                 location := createMatchLocation source valueIndex (valueIndex + value.data.length)
                 path := pathPfx ++ ["style", property] })

/-- The inner star of the second alternative of the style-object regex,
`(?:{[^{}]*}|[^{}])*`: consume one-level brace blocks and non-brace
characters until a closing brace (the stop), the end, or a malformed block
(both failures — no backtracking can help, as analyzed from the regex).
Returns the consumed run and the rest, `none` on a malformed block. -/
def styleInnerStar : Nat → List Char → Option (List Char × List Char)
  | 0, l => some ([], l)
  | _ + 1, [] => some ([], [])
  | fuel + 1, c :: rest =>
    if c = '\x7d' then some ([], c :: rest)
    else if c = '\x7b' then
      let content := rest.takeWhile (fun ch => ch ≠ '\x7b' && ch ≠ '\x7d')
      match rest.drop content.length with
      | '\x7d' :: r2 =>
        match styleInnerStar fuel r2 with
        | some (cons2, rest2) => some ('\x7b' :: (content ++ '\x7d' :: cons2), rest2)
        | none => none
      | _ => none
    else
      match styleInnerStar fuel rest with
      | some (cons2, rest2) => some (c :: cons2, rest2)
      | none => none

/-- Matcher for the style-object regex
`style\s*=\s*{(\s*{[^{}]*}|\s*{(?:{[^{}]*}|[^{}])*})\s*}`: try the flat
first alternative, then the one-level-nesting second one; each must be
followed by the closing `\s*}`.  The payload is the captured group. -/
def fStyleObj (_prev : Option Char) (l : List Char) : Option (List Char × Nat × Nat × Nat) :=
  match eatLit "style".data l with
  | none => none
  | some l1 =>
    let ws1 := l1.takeWhile isJsWs
    match l1.drop ws1.length with
    | '=' :: l2 =>
      let ws2 := l2.takeWhile isJsWs
      match l2.drop ws2.length with
      | '\x7b' :: l5 =>
        let pre0 := 5 + ws1.length + 1 + ws2.length + 1
        let wsa := l5.takeWhile isJsWs
        let l6 := l5.drop wsa.length
        let alt1 : Option (List Char × List Char) :=
          match l6 with
          | '\x7b' :: r =>
            let content := r.takeWhile (fun ch => ch ≠ '\x7b' && ch ≠ '\x7d')
            match r.drop content.length with
            | '\x7d' :: r2 => some (wsa ++ '\x7b' :: (content ++ ['\x7d']), r2)
            | _ => none
          | _ => none
        let closeTail (g : List Char × List Char) : Option (List Char × Nat × Nat × Nat) :=
          let wsE := g.2.takeWhile isJsWs
          match g.2.drop wsE.length with
          | '\x7d' :: _ => some (g.1, pre0, g.1.length, wsE.length + 1)
          | _ => none
        let alt2 : Option (List Char × Nat × Nat × Nat) :=
          match l6 with
          | '\x7b' :: r =>
            match styleInnerStar r.length r with
            | some (consumed, rest2) =>
              match rest2 with
              | '\x7d' :: r3 => closeTail (wsa ++ '\x7b' :: (consumed ++ ['\x7d']), r3)
              | _ => none
            | none => none
          | _ => none
        match alt1 with
        | some g =>
          match closeTail g with
          | some res => some res
          | none => alt2
        | none => alt2
      | _ => none
    | _ => none

/-- Matcher for the style-variable indirection regex
`style\s*=\s*{([a-zA-Z0-9_]+)}`; the payload is the identifier. -/
def fStyleSpread (_prev : Option Char) (l : List Char) : Option (List Char × Nat × Nat × Nat) :=
  match eatLit "style".data l with
  | none => none
  | some l1 =>
    let ws1 := l1.takeWhile isJsWs
    match l1.drop ws1.length with
    | '=' :: l2 =>
      let ws2 := l2.takeWhile isJsWs
      match l2.drop ws2.length with
      | '\x7b' :: l3 =>
        let ident := l3.takeWhile isPropNameChar
        if ident.isEmpty then none
        else
          match l3.drop ident.length with
          | '\x7d' :: _ => some (ident, 5 + ws1.length + 1 + ws2.length + 1, ident.length, 1)
          | _ => none
      | _ => none
    | _ => none

/-- Attempt of the variable-declaration regex
`(const|let|var)\s+NAME\s*=\s*({[^;]+})` at the current position; returns
the whole match and the second capture.  The greedy `[^;]+` backtracks to
the last closing brace before the next semicolon. -/
def tryVarDefAt (name : List Char) (l : List Char) : Option (List Char × List Char) :=
  let kw : Option (List Char × List Char) :=
    match eatLit "const".data l with
    | some r => some ("const".data, r)
    | none =>
      match eatLit "let".data l with
      | some r => some ("let".data, r)
      | none =>
        match eatLit "var".data l with
        | some r => some ("var".data, r)
        | none => none
  match kw with
  | none => none
  | some (kwStr, r1) =>
    let ws := r1.takeWhile isJsWs
    if ws.isEmpty then none
    else
      match eatLit name (r1.drop ws.length) with
      | none => none
      | some r2 =>
        let ws3 := r2.takeWhile isJsWs
        match r2.drop ws3.length with
        | '=' :: r3 =>
          let ws4 := r3.takeWhile isJsWs
          match r3.drop ws4.length with
          | '\x7b' :: r4 =>
            let run := r4.takeWhile (fun c => c ≠ ';')
            match (run.reverse.findIdx? (fun c => c = '\x7d')).map
                (fun k => run.length - 1 - k) with
            | some j =>
              let g2 := '\x7b' :: (run.take j ++ ['\x7d'])
              some (kwStr ++ ws ++ name ++ ws3 ++ '=' :: (ws4 ++ g2), g2)
            | none => none
          | _ => none
        | _ => none

/-- First match of the variable-declaration regex over the source. -/
def findVarDef (name : List Char) : Nat → List Char → Nat → Option (Nat × List Char × List Char)
  | 0, _, _ => none
  | _ + 1, [], _ => none
  | fuel + 1, c :: rest, i =>
    match tryVarDefAt name (c :: rest) with
    | some (m0, g2) => some (i, m0, g2)
    | none => findVarDef name fuel rest (i + 1)

/-- The body of `InlineStyleMatcher.match`: first every direct
`style={{…}}` object in source order, then every `style={identifier}`
indirection whose `const`/`let`/`var` declaration is found — the records
of the second phase are appended after all records of the first. -/
def inlineMatchBody (source : String) (types : List MatchType) : List MatchResult :=
  let phase1 := (scanFrom fStyleObj source.data.length none source.data 0).flatMap
    (fun hit => processStyleObject source types hit.payload hit.pos [])
  let phase2 := (scanFrom fStyleSpread source.data.length none source.data 0).flatMap
    (fun hit =>
      match findVarDef hit.payload source.data.length source.data 0 with
      | some (vi, m0, g2) =>
        processStyleObject source types g2 (vi + (idxOf m0 g2).getD 0) [⟨hit.payload⟩]
      | none => [])
  phase1 ++ phase2

/-- Embedding of `InlineStyleMatcher.match`: the scope-limit early return,
then the two scanning phases. -/
def inlineMatch (source : String) (options : MatcherOptions) : List MatchResult :=
  let types := options.types.getD defaultMatchTypes
  match options.scopeLimit with
  | some sl =>
    if !sl.contains MatchScope.style then []
    else inlineMatchBody source types
  | none => inlineMatchBody source types

/-! ## Claim C8 (corrected) -/

/-- The C8 counterexample source: a style variable declared on line 1,
used after a direct style object. -/
def c8CexSrc : String :=
  "const s = \x7b color: \x27#fff\x27 \x7d;\n<A style=\x7b\x7b color: \x27#000\x27 \x7d\x7d />\n<A style=\x7bs\x7d />\n"

/-- C8 counterexample: `InlineStyleMatcher.match` emits the direct
style-object record (offset 47) before the variable-indirection record
(offset 25), although the latter's matched occurrence appears first in the
source — the indirection phase always runs after the direct phase, so the
record list is not ordered by first appearance. -/
theorem inlineMatch_order_counterexample :
    (inlineMatch c8CexSrc {}).map (fun r => (r.value, r.location.startPos)) =
      [("#000", 47), ("#fff", 25)] ∧
    ¬ (inlineMatch c8CexSrc {}).Pairwise
      (fun a b => a.location.startPos ≤ b.location.startPos) := by
  refine ⟨by decide, by decide⟩

/-! ## Claim C9: heap model for the copy-returning accessors

The aliasing part of the claim — the returned array is a fresh copy
(`[...arr]`), not the internal storage — is about JavaScript reference
semantics, so these three accessors are also modelled over a minimal store
of arrays: the registry fields hold references, reading dereferences, and
the accessors allocate.  `storeOfRegistry` ties the model to the pure
embedding above. -/

/-- A store of arrays; a reference is an index. -/
abbrev TokenStore := List (List DesignToken)

/-- The array references held by a registry instance. -/
structure HeapRegistry where
  colorRef : Nat
  typographyRef : Nat
  spacingRef : Nat
  borderRadiusRef : Nat
  shadowRef : Nat
deriving DecidableEq, Repr

/-- Dereference. -/
def storeRead (st : TokenStore) (r : Nat) : List DesignToken := ((st : List _).get? r).getD []

/-- In-place array mutation (the external mutation of the claim). -/
def storeWrite (st : TokenStore) (r : Nat) (xs : List DesignToken) : TokenStore :=
  (st : List _).set r xs

/-- Allocation of a fresh array. -/
def storeAlloc (st : TokenStore) (xs : List DesignToken) : TokenStore × Nat :=
  ((st : List _) ++ [xs], (st : List _).length)

/-- The five internal references. -/
def internalRefs (reg : HeapRegistry) : List Nat :=
  [reg.colorRef, reg.typographyRef, reg.spacingRef, reg.borderRadiusRef, reg.shadowRef]

/-- The reference selected by `getTokensByCategory`. -/
def categoryRef (reg : HeapRegistry) : TokenCategory → Nat
  | .color => reg.colorRef
  | .typography => reg.typographyRef
  | .spacing => reg.spacingRef
  | .borderRadius => reg.borderRadiusRef
  | .shadow => reg.shadowRef

/-- Content read by `getTokensByCategory`. -/
def tokensByCategoryContent (reg : HeapRegistry) (st : TokenStore) (cat : TokenCategory) :
    List DesignToken :=
  storeRead st (categoryRef reg cat)

/-- Heap `getTokensByCategory`: a fresh copy of the selected array. -/
def getTokensByCategoryH (reg : HeapRegistry) (st : TokenStore) (cat : TokenCategory) :
    TokenStore × Nat :=
  storeAlloc st (tokensByCategoryContent reg st cat)

/-- Content read by `getAllTokens` (the five spreads in declaration order). -/
def allTokensContent (reg : HeapRegistry) (st : TokenStore) : List DesignToken :=
  storeRead st reg.colorRef ++ storeRead st reg.typographyRef ++ storeRead st reg.spacingRef ++
    storeRead st reg.borderRadiusRef ++ storeRead st reg.shadowRef

/-- Heap `getAllTokens`: a fresh array concatenating the five spreads. -/
def getAllTokensH (reg : HeapRegistry) (st : TokenStore) : TokenStore × Nat :=
  storeAlloc st (allTokensContent reg st)

/-- Heap `getTokenCounts`: a fresh object of plain numbers — it holds no
reference, so nothing reachable from it can alias the registry. -/
def getTokenCountsH (reg : HeapRegistry) (st : TokenStore) : TokenCounts :=
  { color := (storeRead st reg.colorRef).length
    typography := (storeRead st reg.typographyRef).length
    spacing := (storeRead st reg.spacingRef).length
    borderRadius := (storeRead st reg.borderRadiusRef).length
    shadow := (storeRead st reg.shadowRef).length }

/-- The store corresponding to a pure registry state. -/
def storeOfRegistry (s : TokenRegistry) : TokenStore :=
  [s.colorTokens.map .color, s.typographyTokens.map .typography, s.spacingTokens.map .spacing,
    s.borderRadiusTokens.map .borderRadius, s.shadowTokens.map .shadow]

/-- The reference layout of `storeOfRegistry`. -/
def canonicalRefs : HeapRegistry :=
  { colorRef := 0, typographyRef := 1, spacingRef := 2, borderRadiusRef := 3, shadowRef := 4 }

/-- The heap model agrees with the pure embedding on the returned
contents. -/
theorem heap_pure_agree (s : TokenRegistry) :
    allTokensContent canonicalRefs (storeOfRegistry s) = getAllTokens s ∧
    ∀ cat, tokensByCategoryContent canonicalRefs (storeOfRegistry s) cat =
      getTokensByCategory s cat := by
  constructor
  · simp [allTokensContent, storeOfRegistry, storeRead, getAllTokens, canonicalRefs,
      List.get?]
  · intro cat
    cases cat <;>
      simp [tokensByCategoryContent, storeOfRegistry, storeRead, getTokensByCategory,
        canonicalRefs, categoryRef, List.get?]

theorem get?_set_ne {α : Type} : ∀ (l : List α) (r i : Nat) (x : α), i ≠ r →
    (l.set r x).get? i = l.get? i
  | [], _, _, _, _ => rfl
  | _ :: _, 0, 0, _, h => absurd rfl h
  | a :: t, 0, i + 1, x, _ => rfl
  | a :: t, r + 1, 0, x, _ => rfl
  | a :: t, r + 1, i + 1, x, h => by
    simp only [List.set, List.get?]
    exact get?_set_ne t r i x (by omega)

theorem storeRead_write_ne (st : TokenStore) (r i : Nat) (xs : List DesignToken) (h : i ≠ r) :
    storeRead (storeWrite st r xs) i = storeRead st i := by
  unfold storeRead storeWrite
  rw [get?_set_ne _ _ _ _ h]

theorem storeRead_append_lt (st : TokenStore) (c : List DesignToken) (i : Nat)
    (h : i < (st : List _).length) :
    storeRead ((st : List _) ++ [c]) i = storeRead st i := by
  unfold storeRead
  rw [List.get?_eq_getElem?, List.get?_eq_getElem?, List.getElem?_append_left h]

/-- C9: the three read accessors never modify the registry state — every
existing array is unchanged — and the array they return is a freshly
allocated copy distinct from all internal arrays, so overwriting the
returned array changes nothing that `getTokensByCategory`, `getAllTokens`
or `getTokenCounts` subsequently return; `getTokenCounts` itself returns a
plain record of numbers holding no reference at all. -/
theorem accessors_return_copies (reg : HeapRegistry) (st : TokenStore) (cat : TokenCategory)
    (hwf : ∀ r ∈ internalRefs reg, r < (st : List _).length) :
    ((getTokensByCategoryH reg st cat).2 ∉ internalRefs reg ∧
      (∀ i, i < (st : List _).length →
        storeRead (getTokensByCategoryH reg st cat).1 i = storeRead st i) ∧
      (∀ xs cat2, tokensByCategoryContent reg
          (storeWrite (getTokensByCategoryH reg st cat).1 (getTokensByCategoryH reg st cat).2 xs)
          cat2 = tokensByCategoryContent reg st cat2)) ∧
    ((getAllTokensH reg st).2 ∉ internalRefs reg ∧
      (∀ i, i < (st : List _).length →
        storeRead (getAllTokensH reg st).1 i = storeRead st i) ∧
      (∀ xs, allTokensContent reg
          (storeWrite (getAllTokensH reg st).1 (getAllTokensH reg st).2 xs) =
        allTokensContent reg st) ∧
      (∀ xs, getTokenCountsH reg
          (storeWrite (getAllTokensH reg st).1 (getAllTokensH reg st).2 xs) =
        getTokenCountsH reg st)) := by
  have hfresh : ∀ r ∈ internalRefs reg, r ≠ (st : List _).length := by
    intro r hr
    have := hwf r hr
    omega
  have hread : ∀ (c : List DesignToken) (r : Nat), r ∈ internalRefs reg →
      ∀ xs, storeRead (storeWrite ((st : List _) ++ [c]) (st : List _).length xs) r =
        storeRead st r := by
    intro c r hr xs
    rw [storeRead_write_ne _ _ _ _ (hfresh r hr), storeRead_append_lt _ _ _ (hwf r hr)]
  have hmemrefs : ∀ (cat2 : TokenCategory), categoryRef reg cat2 ∈ internalRefs reg := by
    intro cat2
    cases cat2 <;> simp [categoryRef, internalRefs]
  constructor
  · refine ⟨?_, ?_, ?_⟩
    · intro hmem
      exact hfresh _ hmem rfl
    · intro i hi
      exact storeRead_append_lt _ _ _ hi
    · intro xs cat2
      exact hread _ _ (hmemrefs cat2) xs
  · refine ⟨?_, ?_, ?_, ?_⟩
    · intro hmem
      exact hfresh _ hmem rfl
    · intro i hi
      exact storeRead_append_lt _ _ _ hi
    · intro xs
      simp only [getAllTokensH, storeAlloc, allTokensContent]
      rw [hread _ _ (by simp [internalRefs]) xs, hread _ _ (by simp [internalRefs]) xs,
        hread _ _ (by simp [internalRefs]) xs, hread _ _ (by simp [internalRefs]) xs,
        hread _ _ (by simp [internalRefs]) xs]
    · intro xs
      simp only [getAllTokensH, storeAlloc, getTokenCountsH]
      rw [hread _ _ (by simp [internalRefs]) xs, hread _ _ (by simp [internalRefs]) xs,
        hread _ _ (by simp [internalRefs]) xs, hread _ _ (by simp [internalRefs]) xs,
        hread _ _ (by simp [internalRefs]) xs]

/-- Witness for C9 on a concrete five-array store. -/
theorem accessors_return_copies_witness :
    ((getTokensByCategoryH canonicalRefs (storeOfRegistry {}) .color).2 ∉
        internalRefs canonicalRefs ∧
      (∀ i, i < ((storeOfRegistry {} : TokenStore) : List _).length →
        storeRead (getTokensByCategoryH canonicalRefs (storeOfRegistry {}) .color).1 i =
          storeRead (storeOfRegistry {}) i) ∧
      (∀ xs cat2, tokensByCategoryContent canonicalRefs
          (storeWrite (getTokensByCategoryH canonicalRefs (storeOfRegistry {}) .color).1
            (getTokensByCategoryH canonicalRefs (storeOfRegistry {}) .color).2 xs) cat2 =
        tokensByCategoryContent canonicalRefs (storeOfRegistry {}) cat2)) ∧
    ((getAllTokensH canonicalRefs (storeOfRegistry {})).2 ∉ internalRefs canonicalRefs ∧
      (∀ i, i < ((storeOfRegistry {} : TokenStore) : List _).length →
        storeRead (getAllTokensH canonicalRefs (storeOfRegistry {})).1 i =
          storeRead (storeOfRegistry {}) i) ∧
      (∀ xs, allTokensContent canonicalRefs
          (storeWrite (getAllTokensH canonicalRefs (storeOfRegistry {})).1
            (getAllTokensH canonicalRefs (storeOfRegistry {})).2 xs) =
        allTokensContent canonicalRefs (storeOfRegistry {})) ∧
      (∀ xs, getTokenCountsH canonicalRefs
          (storeWrite (getAllTokensH canonicalRefs (storeOfRegistry {})).1
            (getAllTokensH canonicalRefs (storeOfRegistry {})).2 xs) =
        getTokenCountsH canonicalRefs (storeOfRegistry {}))) :=
  accessors_return_copies canonicalRefs (storeOfRegistry {}) .color (by decide)
